import Mathlib

/-!
# ION system heap (drivers/gpu/ion/ion_system_heap.c)

A shallow embedding of the paged (vmalloc) and contiguous (kmalloc) ION system
heaps: scatter-list construction, IOMMU mapping and unmapping, and cache
maintenance.

Machine model.  The driver targets 32-bit ARM (MSM7x27), so `int`,
`unsigned int`, `unsigned long`, `size_t` and pointers are all 32 bits wide.
Unsigned values are natural numbers below `2^32`; every place where the C code
can wrap is written with an explicit `% 4294967296`, and the `int` loop
counters are integers obtained through `to_int`.

The collaborators that live outside the file (the IOMMU driver, the address
pool, address translation, the cache primitives) are fields of `Platform`, or
small models whose doc comment says so.  The effects of a call are recorded in a
`World`: the page tables, the address pool and the chronological list of calls.
-/

namespace IonSystemHeap

/-! ## Constants and machine arithmetic -/

/-- The 4 KiB mapping granule, `SZ_4K`. -/
def SZ_4K : Nat := 4096

/-- The page size of the target, `PAGE_SIZE`. -/
def PAGE_SIZE : Nat := 4096

/-- The page order of one granule, `get_order(SZ_4K)`. -/
def ORDER_4K : Nat := 0

/-- The errno value `EINVAL`. -/
def EINVAL : Int := 22

/-- The errno value `ENOMEM`. -/
def ENOMEM : Int := 12

/-- The value of an integer expression once stored in a 32-bit unsigned
object (`unsigned long`, `size_t`, a pointer). -/
def to_ulong (z : Int) : Nat := (z % 4294967296).toNat

/-- The value of a 32-bit unsigned object once converted to `int`. -/
def to_int (n : Nat) : Int :=
  if n % 4294967296 < 2147483648 then ((n % 4294967296 : Nat) : Int)
  else ((n % 4294967296 : Nat) : Int) - 4294967296

/-- The macro `PAGE_ALIGN` of linux/mm.h on a `size_t`: round up to the next
multiple of the page size, in 32-bit unsigned arithmetic. -/
def PAGE_ALIGN (size : Nat) : Nat :=
  ((size + (PAGE_SIZE - 1)) % 4294967296) / PAGE_SIZE * PAGE_SIZE

/-! ## Data model -/

/-- The fields of `struct ion_buffer` the heap reads. -/
structure Buffer where
  size : Nat
  priv_virt : Nat
  vaddr : Nat
deriving DecidableEq, Repr

/-- The mapping record `struct ion_iommu_map`: device address, reserved length,
and the domain and partition numbers read back by `iommu_map_domain` and
`iommu_map_partition`. -/
structure IommuMap where
  iova_addr : Nat
  mapped_size : Nat
  domain : Nat
  partition : Nat
deriving DecidableEq, Repr

/-- The accessor macro `iommu_map_domain`. -/
def iommu_map_domain (data : IommuMap) : Nat := data.domain

/-- The accessor macro `iommu_map_partition`. -/
def iommu_map_partition (data : IommuMap) : Nat := data.partition

/-- One page-table entry: the physical address and the cache attribute. -/
structure Pte where
  phys : Nat
  cached : Nat
deriving DecidableEq, Repr

/-- One reserved device-virtual range of a domain and partition. -/
structure Reservation where
  domain : Nat
  partition : Nat
  base : Nat
  length : Nat
deriving DecidableEq, Repr

/-- The calls made to the IOMMU collaborators, in the order of their
arguments in the C code. -/
inductive Call where
  | allocate_iova (domain partition size align : Nat)
  | free_iova (addr domain partition size : Nat)
  | iommu_map (domain iova phys order cached : Nat)
  | iommu_unmap (domain iova order : Nat)
  | map_extra (domain iova extra flags : Nat)
deriving DecidableEq, Repr

/-- The page tables: domain handle and device address to entry. -/
abbrev PageTable := Nat → Nat → Option Pte

/-- The state of the IOMMU collaborators. -/
structure World where
  table : PageTable
  pool : List Reservation
  trace : List Call

/-- One entry of a scatter list, as written by `sg_set_page`. -/
structure Scatterlist where
  page : Nat
  length : Nat
  offset : Nat
deriving DecidableEq, Repr

/-- The pointer a scatter-list builder returns: a table, `ERR_PTR(e)`, or
`NULL`. -/
inductive SgResult where
  | table (sglist : List Scatterlist)
  | err_ptr (e : Int)
  | null
deriving DecidableEq, Repr

/-- The three platform cache primitives. -/
inductive CacheOp where
  | clean_caches
  | invalidate_caches
  | clean_and_invalidate_caches
deriving DecidableEq, Repr

/-- One call of a cache primitive: `op(vstart, length, pstart)`. -/
structure CacheCall where
  op : CacheOp
  vstart : Nat
  length : Nat
  pstart : Nat
deriving DecidableEq, Repr

/-- The behaviour of everything the file calls but does not define.  Null
pointers and null pages are `0`. -/
structure Platform where
  /-- The flag test `ION_IS_CACHED`. -/
  ION_IS_CACHED : Nat → Bool
  /-- Whether an IOMMU is active, `msm_use_iommu()`. -/
  msm_use_iommu : Bool
  /-- The domain handle of a domain number, `msm_get_iommu_domain`. -/
  msm_get_iommu_domain : Nat → Option Nat
  /-- The base the address pool proposes for (pool, domain, partition, size,
  align); `0` when it has none. -/
  pick_iova : List Reservation → Nat → Nat → Nat → Nat → Nat
  /-- The return code of `iommu_map` for (domain, iova, phys). -/
  iommu_map_ret : Nat → Nat → Nat → Int
  /-- The return code of `msm_iommu_map_extra` for (domain, iova, extra,
  flags). -/
  map_extra_ret : Nat → Nat → Nat → Nat → Int
  /-- The page tables `msm_iommu_map_extra` leaves behind. -/
  map_extra_table : PageTable → Nat → Nat → Nat → Nat → PageTable
  /-- The page behind a vmalloc address, `vmalloc_to_page`. -/
  vmalloc_to_page : Nat → Nat
  /-- The physical address of a page, `page_to_phys`. -/
  page_to_phys : Nat → Nat
  /-- The physical address of a linear-map address, `virt_to_phys`. -/
  virt_to_phys : Nat → Nat
  /-- The page of a linear-map address, `virt_to_page`. -/
  virt_to_page : Nat → Nat
  /-- The address `vmalloc` returns for a non-zero size. -/
  vmalloc_addr : Nat → Nat
  /-- The size of `struct scatterlist`. -/
  sizeof_scatterlist : Nat
  /-- The indeterminate content of the local `ret` before its first
  assignment. -/
  ret_uninit : Int
  /-- The command code `ION_IOC_CLEAN_CACHES`. -/
  ION_IOC_CLEAN_CACHES : Nat
  /-- The command code `ION_IOC_INV_CACHES`. -/
  ION_IOC_INV_CACHES : Nat
  /-- The command code `ION_IOC_CLEAN_INV_CACHES`. -/
  ION_IOC_CLEAN_INV_CACHES : Nat

/-! ## The collaborators -/

/-- The kernel allocator `vmalloc` (mm/vmalloc.c): a zero-sized request
returns `NULL`, any other request what the platform returns. -/
def vmalloc (plat : Platform) (size : Nat) : Nat :=
  if size = 0 then 0 else plat.vmalloc_addr size

/-- The table `sg_init_table` leaves: `nents` zeroed entries. -/
def sg_init_table (nents : Nat) : List Scatterlist :=
  List.replicate nents ⟨0, 0, 0⟩

/-- The call `sg_set_page(&sglist[i], page, len, offset)`. -/
def sg_set_page (sglist : List Scatterlist) (i page len offset : Nat) :
    List Scatterlist :=
  sglist.set i ⟨page, len, offset⟩

/-- Whether no reservation of the domain and partition overlaps
`[base, base + size)`. -/
def range_free (pool : List Reservation) (domain part base size : Nat) : Bool :=
  pool.all fun r =>
    !(decide (r.domain = domain) && decide (r.partition = part) &&
      decide (r.base < base + size) && decide (base < r.base + r.length))

/-- Modelled from the spec: `msm_allocate_iova_address` (mach/iommu_domains.h,
not in this file) reserves a device-virtual range of the given length from the
free-address pool of the domain and partition and returns its base, or returns
`0` when no range of that size and alignment is free.  The pool is the list of
reserved ranges; a proposed base is handed out only when its range is free. -/
def msm_allocate_iova_address (plat : Platform) (w : World)
    (domain part size align : Nat) : Nat × World :=
  let base := plat.pick_iova w.pool domain part size align
  let t := w.trace ++ [Call.allocate_iova domain part size align]
  if base ≠ 0 ∧ range_free w.pool domain part base size = true then
    (base, { table := w.table, pool := ⟨domain, part, base, size⟩ :: w.pool, trace := t })
  else
    (0, { table := w.table, pool := w.pool, trace := t })

/-- Modelled from the spec: `msm_free_iova_address` (mach/iommu_domains.h, not
in this file) releases the range `(addr, size)` back to the free pool of the
domain and partition. -/
def msm_free_iova_address (w : World) (addr domain part size : Nat) : World :=
  { table := w.table
    pool := w.pool.erase ⟨domain, part, addr, size⟩
    trace := w.trace ++ [Call.free_iova addr domain part size] }

/-- Modelled from the spec: `iommu_map` (linux/iommu.h, not in this file)
installs one page-table entry at the device address when it succeeds and
leaves the tables alone when it fails. -/
def iommu_map (plat : Platform) (w : World) (domain iova phys order cached : Nat) :
    Int × World :=
  let ret := plat.iommu_map_ret domain iova phys
  let t := w.trace ++ [Call.iommu_map domain iova phys order cached]
  if ret = 0 then
    (0, { table := fun d a => if d = domain ∧ a = iova then some ⟨phys, cached⟩ else w.table d a
          pool := w.pool
          trace := t })
  else
    (ret, { table := w.table, pool := w.pool, trace := t })

/-- Modelled from the spec: `iommu_unmap` (linux/iommu.h, not in this file)
removes the page-table entry at the device address. -/
def iommu_unmap (w : World) (domain iova order : Nat) : World :=
  { table := fun d a => if d = domain ∧ a = iova then none else w.table d a
    pool := w.pool
    trace := w.trace ++ [Call.iommu_unmap domain iova order] }

/-- The platform primitive `msm_iommu_map_extra` (mach/iommu_domains.h, not in
this file): its return code and the page tables it leaves are the
platform's. -/
def msm_iommu_map_extra (plat : Platform) (w : World) (domain iova extra flags : Nat) :
    Int × World :=
  (plat.map_extra_ret domain iova extra flags,
   { table := plat.map_extra_table w.table domain iova extra flags
     pool := w.pool
     trace := w.trace ++ [Call.map_extra domain iova extra flags] })

/-! ## Scatter lists -/

/-- The loop of `ion_system_heap_map_dma`: `for (i = 0; i < npages; i++)`,
leaving through `goto end` (here `none`) at the first stride whose page does
not resolve. -/
def map_dma_loop (plat : Platform) (npages : Int) :
    Nat → Int → Nat → List Scatterlist → Option (List Scatterlist)
  | 0, _, _, sglist => some sglist
  | fuel + 1, i, vaddr, sglist =>
    if i < npages then
      let page := plat.vmalloc_to_page vaddr
      if page = 0 then none
      else
        map_dma_loop plat npages fuel (i + 1) ((vaddr + PAGE_SIZE) % 4294967296)
          (sg_set_page sglist i.toNat page PAGE_SIZE 0)
    else some sglist

/-- The function `ion_system_heap_map_dma`. -/
def ion_system_heap_map_dma (plat : Platform) (buffer : Buffer) : SgResult :=
  let npages : Int := to_int (PAGE_ALIGN buffer.size / PAGE_SIZE)
  let vaddr := buffer.priv_virt
  let sglist := vmalloc plat (to_ulong (npages * (plat.sizeof_scatterlist : Int)))
  if sglist = 0 then SgResult.err_ptr (-ENOMEM)
  else
    match map_dma_loop plat npages npages.toNat 0 vaddr (sg_init_table npages.toNat) with
    | some l => SgResult.table l
    | none => SgResult.null

/-- The function `ion_system_contig_heap_map_dma`. -/
def ion_system_contig_heap_map_dma (plat : Platform) (buffer : Buffer) : SgResult :=
  let sglist := vmalloc plat plat.sizeof_scatterlist
  if sglist = 0 then SgResult.err_ptr (-ENOMEM)
  else
    SgResult.table
      (sg_set_page (sg_init_table 1) 0 (plat.virt_to_page buffer.priv_virt) buffer.size 0)

/-! ## IOMMU unmapping -/

/-- The loop of `ion_system_heap_unmap_iommu`:
`for (i = mapped_size; i > 0; i -= SZ_4K, temp_iova += SZ_4K)`. -/
def unmap_walk (domain : Nat) : Nat → Int → Nat → World → World
  | 0, _, _, w => w
  | fuel + 1, i, temp_iova, w =>
    if 0 < i then
      unmap_walk domain fuel (i - 4096) ((temp_iova + SZ_4K) % 4294967296)
        (iommu_unmap w domain temp_iova ORDER_4K)
    else w

/-- The function `ion_system_heap_unmap_iommu`, shared by both heaps. -/
def ion_system_heap_unmap_iommu (plat : Platform) (w : World) (data : IommuMap) : World :=
  if plat.msm_use_iommu = false then w
  else
    let domain_num := iommu_map_domain data
    let partition_num := iommu_map_partition data
    match plat.msm_get_iommu_domain domain_num with
    | none => w
    | some domain =>
      let w1 := unmap_walk domain (to_int data.mapped_size).toNat (to_int data.mapped_size)
        data.iova_addr w
      msm_free_iova_address w1 data.iova_addr domain_num partition_num data.mapped_size

/-! ## IOMMU mapping -/

/-- The locals a mapping walk leaves behind: whether it left through
`goto out2`, the counter `i`, the cursor `temp_iova`, `ret`, and the world. -/
structure Walk where
  failed : Bool
  i : Int
  temp_iova : Nat
  ret : Int
  w : World

/-- The granule loop of both `map_iommu` functions:
`for (i = size; i > 0; i -= SZ_4K, temp_iova += SZ_4K, temp_phys += SZ_4K)`,
where `phys_of temp_phys` is the physical address handed to `iommu_map`. -/
def map_walk (plat : Platform) (phys_of : Nat → Nat) (domain cached : Nat) :
    Nat → Int → Nat → Nat → Int → World → Walk
  | 0, i, temp_iova, _, ret, w => ⟨false, i, temp_iova, ret, w⟩
  | fuel + 1, i, temp_iova, temp_phys, ret, w =>
    if 0 < i then
      match iommu_map plat w domain temp_iova (phys_of temp_phys) ORDER_4K cached with
      | (r, w1) =>
        if r ≠ 0 then ⟨true, i, temp_iova, r, w1⟩
        else
          map_walk plat phys_of domain cached fuel (i - 4096)
            ((temp_iova + SZ_4K) % 4294967296) ((temp_phys + SZ_4K) % 4294967296) r w1
    else ⟨false, i, temp_iova, ret, w⟩

/-- The loop at label `out2`:
`for ( ; i < buffer->size; i += SZ_4K, temp_iova -= SZ_4K)`.  The comparison
is between an `int` and a `size_t`, so `i` is converted to unsigned. -/
def unwind (domain size : Nat) : Nat → Int → Nat → World → World
  | 0, _, _, w => w
  | fuel + 1, i, temp_iova, w =>
    if to_ulong i < size then
      unwind domain size fuel (to_int (to_ulong (i + 4096)))
        ((temp_iova + 4294967296 - SZ_4K) % 4294967296)
        (iommu_unmap w domain temp_iova ORDER_4K)
    else w

/-- The active-IOMMU path shared by both `map_iommu` functions (lines 211-259
and 408-452, which differ only in the physical address of a granule): the
reservation, the domain lookup, the granule loop, the padding step and the
labels `out2`, `out1` and `out`.  The cursor `temp_phys` starts at
`temp_phys`, and `phys_of temp_phys` is what `iommu_map` receives. -/
def map_active (plat : Platform) (phys_of : Nat → Nat) (temp_phys : Nat) (w : World)
    (buffer : Buffer) (data : IommuMap)
    (domain_num partition_num align iova_length flags : Nat) : Int × World × IommuMap :=
  let data1 : IommuMap := { data with mapped_size := iova_length }
  let extra := to_ulong ((iova_length : Int) - (buffer.size : Int))
  match msm_allocate_iova_address plat w domain_num partition_num data1.mapped_size align with
  | (addr, w1) =>
    let data2 : IommuMap := { data1 with iova_addr := addr }
    if data2.iova_addr = 0 then (-ENOMEM, w1, data2)
    else
      let out1 := fun (ret : Int) (w2 : World) =>
        (ret,
          msm_free_iova_address w2 data2.iova_addr domain_num partition_num data2.mapped_size,
          data2)
      match plat.msm_get_iommu_domain domain_num with
      | none => out1 (-ENOMEM) w1
      | some domain =>
        let out2 := fun (ret : Int) (i : Int) (temp_iova : Nat) (w2 : World) =>
          out1 ret (unwind domain buffer.size (buffer.size / SZ_4K + 1) i temp_iova w2)
        let cached := if plat.ION_IS_CACHED flags = true then 1 else 0
        let r := map_walk plat phys_of domain cached (to_int buffer.size).toNat
          (to_int buffer.size) data2.iova_addr temp_phys plat.ret_uninit w1
        if r.failed = true then out2 r.ret r.i r.temp_iova r.w
        else if extra ≠ 0 then
          match msm_iommu_map_extra plat r.w domain r.temp_iova extra flags with
          | (e, w2) =>
            if e < 0 then out2 r.ret r.i r.temp_iova w2
            else (0, w2, data2)
        else (0, r.w, data2)

/-- The function `ion_system_heap_map_iommu` (paged heap): the granule at
`temp_phys` is translated with `page_to_phys(vmalloc_to_page(temp_phys))`. -/
def ion_system_heap_map_iommu (plat : Platform) (w : World) (buffer : Buffer)
    (data : IommuMap) (domain_num partition_num align iova_length flags : Nat) :
    Int × World × IommuMap :=
  if plat.ION_IS_CACHED flags = false then (-EINVAL, w, data)
  else if plat.msm_use_iommu = false then (-EINVAL, w, data)
  else
    map_active plat (fun v => plat.page_to_phys (plat.vmalloc_to_page v)) buffer.vaddr w
      buffer data domain_num partition_num align iova_length flags

/-- The function `ion_system_contig_heap_map_iommu` (contiguous heap): the
cursor starts at `virt_to_phys(buffer->vaddr)` and is itself the physical
address. -/
def ion_system_contig_heap_map_iommu (plat : Platform) (w : World) (buffer : Buffer)
    (data : IommuMap) (domain_num partition_num align iova_length flags : Nat) :
    Int × World × IommuMap :=
  if plat.ION_IS_CACHED flags = false then (-EINVAL, w, data)
  else if plat.msm_use_iommu = false then
    (0, w, { data with iova_addr := plat.virt_to_phys buffer.vaddr })
  else
    map_active plat (fun p => p) (plat.virt_to_phys buffer.vaddr) w
      buffer data domain_num partition_num align iova_length flags

/-! ## Cache maintenance -/

/-- The loop of `ion_system_heap_cache_ops`:
`for (...; ln < length; vtemp += PAGE_SIZE, ln += PAGE_SIZE, vstart += PAGE_SIZE)`.
The local `pstart` is a 32-bit `unsigned long`: it holds the translation modulo
`2^32`, and that value is what `!pstart` tests and what the primitive receives.
The result is `none` when the fuel runs out before the loop ends. -/
def cache_walk (plat : Platform) (op : CacheOp) (length : Nat) :
    Nat → Nat → Nat → Nat → List CacheCall → Option (Int × List CacheCall)
  | 0, _, _, _, _ => none
  | fuel + 1, vtemp, vstart, ln, calls =>
    if ln < length then
      let pstart := plat.page_to_phys (plat.vmalloc_to_page vtemp) % 4294967296
      if pstart = 0 then some (-EINVAL, calls)
      else
        cache_walk plat op length fuel ((vtemp + PAGE_SIZE) % 4294967296)
          ((vstart + PAGE_SIZE) % 4294967296) ((ln + PAGE_SIZE) % 4294967296)
          (calls ++ [⟨op, vstart, PAGE_SIZE, pstart⟩])
    else some (0, calls)

/-- The function `ion_system_heap_cache_ops` (paged heap), run with the given
fuel: the return code and the cache-primitive calls made, or `none` when the
fuel runs out. -/
def ion_system_heap_cache_ops (plat : Platform) (fuel : Nat) (buffer : Buffer)
    (vaddr offset length cmd : Nat) : Option (Int × List CacheCall) :=
  let run := fun (op : CacheOp) =>
    cache_walk plat op length fuel ((buffer.priv_virt + offset) % 4294967296) vaddr 0 []
  if cmd = plat.ION_IOC_CLEAN_CACHES then run CacheOp.clean_caches
  else if cmd = plat.ION_IOC_INV_CACHES then run CacheOp.invalidate_caches
  else if cmd = plat.ION_IOC_CLEAN_INV_CACHES then run CacheOp.clean_and_invalidate_caches
  else some (-EINVAL, [])

/-- The function `ion_system_contig_heap_cache_ops` (contiguous heap): the
return code and the cache-primitive calls made. -/
def ion_system_contig_heap_cache_ops (plat : Platform) (buffer : Buffer)
    (vaddr offset length cmd : Nat) : Int × List CacheCall :=
  let pstart := (plat.virt_to_phys buffer.priv_virt + offset) % 4294967296
  if pstart = 0 then (-EINVAL, [])
  else
    let vstart := vaddr
    if cmd = plat.ION_IOC_CLEAN_CACHES then
      (0, [⟨CacheOp.clean_caches, vstart, length, pstart⟩])
    else if cmd = plat.ION_IOC_INV_CACHES then
      (0, [⟨CacheOp.invalidate_caches, vstart, length, pstart⟩])
    else if cmd = plat.ION_IOC_CLEAN_INV_CACHES then
      (0, [⟨CacheOp.clean_and_invalidate_caches, vstart, length, pstart⟩])
    else (-EINVAL, [])

/-! ## The two heaps -/

/-- The two heap types this file creates. -/
inductive HeapType where
  | ION_HEAP_TYPE_SYSTEM
  | ION_HEAP_TYPE_SYSTEM_CONTIG
deriving DecidableEq, Repr

/-- The operations of `struct ion_heap_ops` studied here.  The cache operation
takes the fuel of its loop. -/
structure IonHeapOps where
  map_dma : Platform → Buffer → SgResult
  cache_op : Platform → Nat → Buffer → Nat → Nat → Nat → Nat → Option (Int × List CacheCall)
  map_iommu : Platform → World → Buffer → IommuMap → Nat → Nat → Nat → Nat → Nat →
    Int × World × IommuMap
  unmap_iommu : Platform → World → IommuMap → World

/-- The dispatch table `vmalloc_ops` of the paged heap. -/
def vmalloc_ops : IonHeapOps where
  map_dma := ion_system_heap_map_dma
  cache_op := ion_system_heap_cache_ops
  map_iommu := ion_system_heap_map_iommu
  unmap_iommu := ion_system_heap_unmap_iommu

/-- The dispatch table `kmalloc_ops` of the contiguous heap. -/
def kmalloc_ops : IonHeapOps where
  map_dma := ion_system_contig_heap_map_dma
  cache_op := fun plat _ buffer vaddr offset length cmd =>
    some (ion_system_contig_heap_cache_ops plat buffer vaddr offset length cmd)
  map_iommu := ion_system_contig_heap_map_iommu
  unmap_iommu := ion_system_heap_unmap_iommu

/-- The table `ion_system_heap_create` and `ion_system_contig_heap_create`
install for each heap type. -/
def heap_ops : HeapType → IonHeapOps
  | HeapType.ION_HEAP_TYPE_SYSTEM => vmalloc_ops
  | HeapType.ION_HEAP_TYPE_SYSTEM_CONTIG => kmalloc_ops

/-! ## Vocabulary of the statements -/

/-- The number of 4 KiB granules of `size` bytes, `ceil(size / 4096)`. -/
def granules (size : Nat) : Nat := (size + 4095) / 4096

/-- The address `k` strides of 4096 bytes above `base`, as a 32-bit
address. -/
def stride_addr (base k : Nat) : Nat := (base + k * 4096) % 4294967296

/-- The physical address each heap maps for the `k`-th granule of a buffer:
the page behind `vaddr + k * 4096` for the paged heap, the physical base plus
`k * 4096` for the contiguous heap. -/
def granule_phys (plat : Platform) : HeapType → Buffer → Nat → Nat
  | HeapType.ION_HEAP_TYPE_SYSTEM, buffer, k =>
    plat.page_to_phys (plat.vmalloc_to_page ((buffer.vaddr + k * 4096) % 4294967296))
  | HeapType.ION_HEAP_TYPE_SYSTEM_CONTIG, buffer, k =>
    (plat.virt_to_phys buffer.vaddr + k * 4096) % 4294967296

/-- The total length across the entries of a scatter list. -/
def sg_total_length (l : List Scatterlist) : Nat := (l.map fun e => e.length).sum

/-! ## A concrete platform for the worked inputs -/

/-- A platform with an active IOMMU whose domains are numbers `1` and `2`,
whose pool always proposes the base `65536`, and where every call succeeds. -/
def demo_platform : Platform where
  ION_IS_CACHED := fun flags => flags % 2 == 1
  msm_use_iommu := true
  msm_get_iommu_domain := fun d => if d = 1 ∨ d = 2 then some d else none
  pick_iova := fun _ _ _ _ _ => 65536
  iommu_map_ret := fun _ _ _ => 0
  map_extra_ret := fun _ _ _ _ => 0
  map_extra_table := fun t _ _ _ _ => t
  vmalloc_to_page := fun v => v / 4096
  page_to_phys := fun p => p * 4096
  virt_to_phys := fun v => v - 3221225472
  virt_to_page := fun v => (v - 3221225472) / 4096
  vmalloc_addr := fun _ => 3758096384
  sizeof_scatterlist := 20
  ret_uninit := -1
  ION_IOC_CLEAN_CACHES := 0
  ION_IOC_INV_CACHES := 1
  ION_IOC_CLEAN_INV_CACHES := 2

/-- The demo platform with `iommu_map` failing with `-ENOMEM` at one device
address. -/
def demo_map_fails_at (iova : Nat) : Platform :=
  { demo_platform with iommu_map_ret := fun _ a _ => if a = iova then -12 else 0 }

/-- The demo platform with `msm_iommu_map_extra` failing with `-ENOMEM` and
leaving the page tables as it found them. -/
def demo_extra_fails : Platform :=
  { demo_platform with map_extra_ret := fun _ _ _ _ => -12 }

/-- The demo platform without an active IOMMU. -/
def demo_no_iommu : Platform :=
  { demo_platform with msm_use_iommu := false }

/-- A world with empty page tables, nothing reserved and no call made. -/
def empty_world : World := ⟨fun _ _ => none, [], []⟩

/-- A buffer of `size` bytes at kernel address `3489660928`. -/
def demo_buffer (size : Nat) : Buffer := ⟨size, 3489660928, 3489660928⟩

/-- A fresh mapping record carrying the given domain and partition numbers. -/
def demo_record (domain part : Nat) : IommuMap := ⟨0, 0, domain, part⟩

/-- The result of mapping a two-page paged buffer on the demo platform with a
requested length of two pages: return code, world and record. -/
def demo_mapped : Int × World × IommuMap :=
  ion_system_heap_map_iommu demo_platform empty_world (demo_buffer 8192) (demo_record 1 0)
    1 0 4096 8192 1

/-- A world where a range of the unknown domain `9` is reserved. -/
def stale_world : World := ⟨fun _ _ => none, [⟨9, 0, 65536, 4096⟩], []⟩

/-! ## Allocation, the byte counters and kernel mapping -/

/-- The kernel allocators the two `allocate` functions call: the address each
returns for a size, `0` for `NULL`. -/
structure KernelAllocator where
  /-- The address `vmalloc_user` returns. -/
  vmalloc_user : Nat → Nat
  /-- The address `kzalloc(len, GFP_KERNEL)` returns. -/
  kzalloc : Nat → Nat

/-- The state the allocation functions act on: the two counters
`system_heap_allocated` and `system_contig_heap_allocated` (of type `atomic_t`,
declared outside the file) and the blocks handed out and not yet freed. -/
structure HeapState where
  system_heap_allocated : Int
  system_contig_heap_allocated : Int
  live : List Nat
deriving DecidableEq, Repr

/-- The function `ion_system_heap_allocate`. -/
def ion_system_heap_allocate (ka : KernelAllocator) (s : HeapState) (buffer : Buffer)
    (size _align _flags : Nat) : Int × HeapState × Buffer :=
  let buffer1 : Buffer := { buffer with priv_virt := ka.vmalloc_user size }
  if buffer1.priv_virt = 0 then (-ENOMEM, s, buffer1)
  else (0, { s with live := buffer1.priv_virt :: s.live }, buffer1)

/-- The function `ion_system_heap_free`: `vfree(buffer->priv_virt)`. -/
def ion_system_heap_free (s : HeapState) (buffer : Buffer) : HeapState :=
  { s with live := s.live.erase buffer.priv_virt }

/-- The function `ion_system_heap_get_allocated`: `atomic_read` of the counter,
returned as an `unsigned long`. -/
def ion_system_heap_get_allocated (s : HeapState) : Nat :=
  to_ulong s.system_heap_allocated

/-- The function `ion_system_contig_heap_allocate`. -/
def ion_system_contig_heap_allocate (ka : KernelAllocator) (s : HeapState) (buffer : Buffer)
    (len _align _flags : Nat) : Int × HeapState × Buffer :=
  let buffer1 : Buffer := { buffer with priv_virt := ka.kzalloc len }
  if buffer1.priv_virt = 0 then (-ENOMEM, s, buffer1)
  else (0, { s with live := buffer1.priv_virt :: s.live }, buffer1)

/-- The function `ion_system_contig_heap_free`: `kfree(buffer->priv_virt)`. -/
def ion_system_contig_heap_free (s : HeapState) (buffer : Buffer) : HeapState :=
  { s with live := s.live.erase buffer.priv_virt }

/-- The function `ion_system_contig_heap_get_allocated`. -/
def ion_system_contig_heap_get_allocated (s : HeapState) : Nat :=
  to_ulong s.system_contig_heap_allocated

/-- The `.allocate` entry of each dispatch table. -/
def heap_allocate : HeapType → KernelAllocator → HeapState → Buffer → Nat → Nat → Nat →
    Int × HeapState × Buffer
  | HeapType.ION_HEAP_TYPE_SYSTEM => ion_system_heap_allocate
  | HeapType.ION_HEAP_TYPE_SYSTEM_CONTIG => ion_system_contig_heap_allocate

/-- The `.free` entry of each dispatch table. -/
def heap_free : HeapType → HeapState → Buffer → HeapState
  | HeapType.ION_HEAP_TYPE_SYSTEM => ion_system_heap_free
  | HeapType.ION_HEAP_TYPE_SYSTEM_CONTIG => ion_system_contig_heap_free

/-- The `.get_allocated` entry of each dispatch table. -/
def heap_get_allocated : HeapType → HeapState → Nat
  | HeapType.ION_HEAP_TYPE_SYSTEM => ion_system_heap_get_allocated
  | HeapType.ION_HEAP_TYPE_SYSTEM_CONTIG => ion_system_contig_heap_get_allocated

/-- A kernel pointer result: an address or `ERR_PTR(e)`. -/
inductive KernelPtr where
  | ptr (addr : Nat)
  | err_ptr (e : Int)
deriving DecidableEq, Repr

/-- The function `ion_system_heap_map_kernel`: the pointer returned and the
buffer as the call leaves it. -/
def ion_system_heap_map_kernel (plat : Platform) (buffer : Buffer) (flags : Nat) :
    KernelPtr × Buffer :=
  if plat.ION_IS_CACHED flags = true then (KernelPtr.ptr buffer.priv_virt, buffer)
  else (KernelPtr.err_ptr (-EINVAL), buffer)

/-- The `.map_kernel` entry of each dispatch table: both tables name
`ion_system_heap_map_kernel`. -/
def heap_map_kernel : HeapType → Platform → Buffer → Nat → KernelPtr × Buffer
  | HeapType.ION_HEAP_TYPE_SYSTEM => ion_system_heap_map_kernel
  | HeapType.ION_HEAP_TYPE_SYSTEM_CONTIG => ion_system_heap_map_kernel

/-! ## Further vocabulary of the statements -/

/-- The command code that selects each cache primitive in the `switch` of the
cache operations. -/
def command_code (plat : Platform) : CacheOp → Nat
  | CacheOp.clean_caches => plat.ION_IOC_CLEAN_CACHES
  | CacheOp.invalidate_caches => plat.ION_IOC_INV_CACHES
  | CacheOp.clean_and_invalidate_caches => plat.ION_IOC_CLEAN_INV_CACHES

/-- The physical address of the page behind the `k`-th page-sized stride of the
window that starts `offset` bytes into a paged buffer, as the 32-bit value the
code holds in `pstart`. -/
def stride_phys (plat : Platform) (buffer : Buffer) (offset k : Nat) : Nat :=
  plat.page_to_phys (plat.vmalloc_to_page (stride_addr (buffer.priv_virt + offset) k))
    % 4294967296

/-- The calls a world has seen since an earlier world. -/
def calls_since (w w2 : World) : List Call := w2.trace.drop w.trace.length

/-- The device addresses of the `iommu_map` calls of a trace, in order. -/
def mapped_granules (t : List Call) : List Nat :=
  t.filterMap fun c =>
    match c with
    | Call.iommu_map _ iova _ _ _ => some iova
    | _ => none

/-- The regions (device address, length) handed to `msm_iommu_map_extra` in a
trace, in order. -/
def padding_regions (t : List Call) : List (Nat × Nat) :=
  t.filterMap fun c =>
    match c with
    | Call.map_extra _ iova extra _ => some (iova, extra)
    | _ => none

/-! ## Further worked inputs -/

/-- A kernel allocator that always succeeds. -/
def demo_allocator : KernelAllocator where
  vmalloc_user := fun _ => 3489660928
  kzalloc := fun _ => 3489660928

/-- A heap state with both counters at `0` and nothing allocated. -/
def empty_heap_state : HeapState := ⟨0, 0, []⟩

/-- The demo platform where the page behind one virtual address does not
resolve. -/
def demo_page_missing_at (v : Nat) : Platform :=
  { demo_platform with vmalloc_to_page := fun a => if a = v then 0 else a / 4096 }

/-- The demo platform where every address translates to the non-zero physical
address `4096`. -/
def demo_all_pages : Platform :=
  { demo_platform with page_to_phys := fun _ => 4096 }

/-! ## Machine arithmetic lemmas and the unmapping walk -/

theorem to_int_of_lt (n : Nat) (h : n < 2147483648) : to_int n = (n : Int) := by
  unfold to_int
  have h1 : n % 4294967296 = n := Nat.mod_eq_of_lt (by omega)
  rw [h1, if_pos h]

theorem to_int_of_ge (n : Nat) (h : 2147483648 ≤ n) (h2 : n < 4294967296) :
    to_int n = (n : Int) - 4294967296 := by
  unfold to_int
  have h1 : n % 4294967296 = n := Nat.mod_eq_of_lt h2
  rw [h1, if_neg (by omega)]

theorem to_ulong_natCast (n : Nat) (h : n < 4294967296) : to_ulong (n : Int) = n := by
  unfold to_ulong
  omega

theorem unmap_walk_pool (domain : Nat) (fuel : Nat) :
    ∀ (i : Int) (a : Nat) (w : World), (unmap_walk domain fuel i a w).pool = w.pool := by
  induction fuel with
  | zero => intro i a w; rfl
  | succ n ih =>
    intro i a w
    unfold unmap_walk
    split
    · rw [ih]; rfl
    · rfl

theorem unmap_walk_keeps_none (domain : Nat) (d x : Nat) (fuel : Nat) :
    ∀ (i : Int) (a : Nat) (w : World), w.table d x = none →
      (unmap_walk domain fuel i a w).table d x = none := by
  induction fuel with
  | zero => intro i a w h; exact h
  | succ n ih =>
    intro i a w h
    unfold unmap_walk
    split
    · apply ih
      unfold iommu_unmap
      simp only
      split
      · rfl
      · exact h
    · exact h

theorem unmap_walk_table (domain : Nat) (fuel : Nat) :
    ∀ (i : Int) (a : Nat) (w : World) (k : Nat), i ≤ (fuel : Int) → a < 4294967296 →
      (k : Int) * 4096 < i →
      (unmap_walk domain fuel i a w).table domain (stride_addr a k) = none := by
  induction fuel with
  | zero => intro i a w k hf ha hk; omega
  | succ n ih =>
    intro i a w k hf ha hk
    unfold unmap_walk
    have hi : 0 < i := by omega
    rw [if_pos hi]
    cases k with
    | zero =>
      apply unmap_walk_keeps_none
      unfold iommu_unmap stride_addr
      simp only
      rw [if_pos]
      exact ⟨trivial, by omega⟩
    | succ j =>
      have := ih (i - 4096) ((a + SZ_4K) % 4294967296) (iommu_unmap w domain a ORDER_4K) j
        (by omega) (Nat.mod_lt _ (by norm_num)) (by push_cast at hk; omega)
      have e : stride_addr ((a + SZ_4K) % 4294967296) j = stride_addr a (j + 1) := by
        unfold stride_addr SZ_4K
        omega
      rw [e] at this
      exact this

theorem unmap_walk_trace (domain : Nat) (fuel : Nat) :
    ∀ (i : Int) (a : Nat) (w : World), i ≤ (fuel : Int) → a < 4294967296 →
      (unmap_walk domain fuel i a w).trace =
        w.trace ++ (List.range (granules i.toNat)).map
          (fun k => Call.iommu_unmap domain (stride_addr a k) ORDER_4K) := by
  induction fuel with
  | zero =>
    intro i a w hf ha
    have : i.toNat = 0 := by omega
    simp [unmap_walk, this, granules]
  | succ n ih =>
    intro i a w hf ha
    unfold unmap_walk
    by_cases hi : 0 < i
    · rw [if_pos hi]
      rw [ih (i - 4096) _ _ (by omega) (Nat.mod_lt _ (by norm_num))]
      have hg : granules i.toNat = granules (i - 4096).toNat + 1 := by
        unfold granules
        omega
      rw [hg, List.range_succ_eq_map, List.map_cons, List.map_map]
      have e : ∀ k, stride_addr ((a + SZ_4K) % 4294967296) k = stride_addr a (k + 1) := by
        intro k
        unfold stride_addr SZ_4K
        omega
      have e0 : stride_addr a 0 = a := by
        unfold stride_addr
        omega
      simp [iommu_unmap, e, e0, Function.comp_def]
    · rw [if_neg hi]
      have : i.toNat = 0 := by omega
      simp [this, granules]


/-! ## The scatter-list loop -/

theorem map_dma_loop_set (pre : List Scatterlist) (m : Nat) (e z : Scatterlist) :
    (pre ++ List.replicate (m + 1) z).set pre.length e = (pre ++ [e]) ++ List.replicate m z := by
  induction pre with
  | nil => simp [List.replicate_succ]
  | cons x xs ih => simpa using ih

theorem map_dma_loop_some (plat : Platform) (pv N : Nat) (m : Nat) :
    ∀ j : Nat, j + m = N →
      (∀ k, j ≤ k → k < N → plat.vmalloc_to_page (stride_addr pv k) ≠ 0) →
      map_dma_loop plat (N : Int) m (j : Int) (stride_addr pv j)
        ((List.range j).map (fun k => (⟨plat.vmalloc_to_page (stride_addr pv k), PAGE_SIZE, 0⟩ : Scatterlist))
          ++ List.replicate m ⟨0, 0, 0⟩)
      = some ((List.range N).map
          (fun k => (⟨plat.vmalloc_to_page (stride_addr pv k), PAGE_SIZE, 0⟩ : Scatterlist))) := by
  induction m with
  | zero =>
    intro j hj _
    have : j = N := by omega
    subst this
    simp [map_dma_loop]
  | succ n ih =>
    intro j hj hall
    unfold map_dma_loop
    have hlt : (j : Int) < (N : Int) := by omega
    rw [if_pos hlt]
    have hp := hall j (le_refl j) (by omega)
    simp only [hp, if_false]
    have e1 : (stride_addr pv j + PAGE_SIZE) % 4294967296 = stride_addr pv (j + 1) := by
      unfold stride_addr PAGE_SIZE; omega
    have e2 : ((j : Int) + 1) = ((j + 1 : Nat) : Int) := by push_cast; rfl
    rw [e1, e2]
    have e3 : sg_set_page
        ((List.range j).map (fun k => (⟨plat.vmalloc_to_page (stride_addr pv k), PAGE_SIZE, 0⟩ : Scatterlist))
          ++ List.replicate (n + 1) ⟨0, 0, 0⟩) (j : Int).toNat
        (plat.vmalloc_to_page (stride_addr pv j)) PAGE_SIZE 0
        = (List.range (j + 1)).map (fun k => (⟨plat.vmalloc_to_page (stride_addr pv k), PAGE_SIZE, 0⟩ : Scatterlist))
          ++ List.replicate n ⟨0, 0, 0⟩ := by
      unfold sg_set_page
      have hl : (j : Int).toNat = ((List.range j).map (fun k => (⟨plat.vmalloc_to_page (stride_addr pv k), PAGE_SIZE, 0⟩ : Scatterlist))).length := by
        simp
      rw [hl, map_dma_loop_set, List.range_succ, List.map_append]
      rfl
    rw [e3]
    exact ih (j + 1) (by omega) (fun k hk hkN => hall k (by omega) hkN)

theorem map_dma_loop_none (plat : Platform) (pv N : Nat) (m : Nat) :
    ∀ (j : Nat) (sg : List Scatterlist), j + m = N →
      (∃ k, j ≤ k ∧ k < N ∧ plat.vmalloc_to_page (stride_addr pv k) = 0) →
      map_dma_loop plat (N : Int) m (j : Int) (stride_addr pv j) sg = none := by
  induction m with
  | zero =>
    intro j sg hj ⟨k, h1, h2, _⟩
    omega
  | succ n ih =>
    intro j sg hj ⟨k, h1, h2, h3⟩
    unfold map_dma_loop
    have hlt : (j : Int) < (N : Int) := by omega
    rw [if_pos hlt]
    by_cases hp : plat.vmalloc_to_page (stride_addr pv j) = 0
    · simp only [hp, if_true]
    · simp only [hp, if_false]
      have e1 : (stride_addr pv j + PAGE_SIZE) % 4294967296 = stride_addr pv (j + 1) := by
        unfold stride_addr PAGE_SIZE; omega
      have e2 : ((j : Int) + 1) = ((j + 1 : Nat) : Int) := by push_cast; rfl
      rw [e1, e2]
      apply ih (j + 1) _ (by omega)
      refine ⟨k, ?_, h2, h3⟩
      by_contra hc
      have : k = j := by omega
      subst this
      exact hp h3


theorem sg_total_length_pages (f : Nat → Nat) (n : Nat) :
    sg_total_length ((List.range n).map (fun k => (⟨f k, PAGE_SIZE, 0⟩ : Scatterlist)))
      = n * PAGE_SIZE := by
  unfold sg_total_length
  induction n with
  | zero => simp
  | succ n ih =>
    rw [List.range_succ, List.map_append, List.map_append, List.sum_append, ih]
    simp
    ring

theorem map_dma_npages (plat : Platform) (buffer : Buffer) (hs32 : buffer.size < 4294967296)
    (hstore : ion_system_heap_map_dma plat buffer ≠ SgResult.err_ptr (-ENOMEM)) :
    buffer.size + 4095 < 4294967296 := by
  by_contra hc
  apply hstore
  have h0 : PAGE_ALIGN buffer.size / PAGE_SIZE = 0 := by
    unfold PAGE_ALIGN PAGE_SIZE
    omega
  unfold ion_system_heap_map_dma
  simp [h0, to_int, to_ulong, vmalloc]

theorem map_dma_unfold (plat : Platform) (buffer : Buffer) (hs32 : buffer.size < 4294967296)
    (hv : buffer.priv_virt < 4294967296)
    (hstore : ion_system_heap_map_dma plat buffer ≠ SgResult.err_ptr (-ENOMEM)) :
    ion_system_heap_map_dma plat buffer =
      match map_dma_loop plat (granules buffer.size : Int) (granules buffer.size) ((0 : Nat) : Int)
        (stride_addr buffer.priv_virt 0)
        ((List.range 0).map (fun k => (⟨plat.vmalloc_to_page (stride_addr buffer.priv_virt k), PAGE_SIZE, 0⟩ : Scatterlist))
          ++ List.replicate (granules buffer.size) ⟨0, 0, 0⟩) with
      | some l => SgResult.table l
      | none => SgResult.null := by
  have hw := map_dma_npages plat buffer hs32 hstore
  have hn : PAGE_ALIGN buffer.size / PAGE_SIZE = granules buffer.size := by
    unfold PAGE_ALIGN PAGE_SIZE granules
    omega
  have hn2 : to_int (granules buffer.size) = (granules buffer.size : Int) := by
    apply to_int_of_lt
    unfold granules
    omega
  have hs : stride_addr buffer.priv_virt 0 = buffer.priv_virt := by
    unfold stride_addr
    omega
  have hne := hstore
  unfold ion_system_heap_map_dma at hne ⊢
  rw [hn, hn2] at hne ⊢
  simp only [Int.toNat_ofNat] at hne ⊢
  split
  · rename_i h
    simp [h] at hne
  · rw [hs]
    simp only [sg_init_table, List.range_zero, List.map_nil, List.nil_append]
    rfl



/-! ## The mapping walk and its unwinding -/

theorem map_walk_pool (plat : Platform) (phys_of : Nat → Nat) (domain cached : Nat) (fuel : Nat) :
    ∀ (i : Int) (a p : Nat) (ret : Int) (w : World),
      (map_walk plat phys_of domain cached fuel i a p ret w).w.pool = w.pool := by
  induction fuel with
  | zero => intro i a p ret w; rfl
  | succ n ih =>
    intro i a p ret w
    unfold map_walk
    split
    · by_cases h0 : plat.iommu_map_ret domain a (phys_of p) = 0
      · simp only [iommu_map, h0, if_true, ne_eq, not_true_eq_false, if_false]
        rw [ih]
      · simp only [iommu_map, h0, if_false, ne_eq, not_false_eq_true, if_true]
    · rfl

theorem map_walk_failed_ret (plat : Platform) (phys_of : Nat → Nat) (domain cached : Nat)
    (fuel : Nat) :
    ∀ (i : Int) (a p : Nat) (ret : Int) (w : World),
      (map_walk plat phys_of domain cached fuel i a p ret w).failed = true →
      (map_walk plat phys_of domain cached fuel i a p ret w).ret ≠ 0 := by
  induction fuel with
  | zero => intro i a p ret w h; simp [map_walk] at h
  | succ n ih =>
    intro i a p ret w
    unfold map_walk
    split
    · by_cases h0 : plat.iommu_map_ret domain a (phys_of p) = 0
      · simp only [iommu_map, h0, if_true, ne_eq, not_true_eq_false, if_false]
        exact ih _ _ _ _ _
      · simp only [iommu_map, h0, if_false, ne_eq, not_false_eq_true, if_true]
        intro _
        trivial
    · intro h; simp at h

theorem unwind_pool (domain size : Nat) (fuel : Nat) :
    ∀ (i : Int) (a : Nat) (w : World), (unwind domain size fuel i a w).pool = w.pool := by
  induction fuel with
  | zero => intro i a w; rfl
  | succ n ih =>
    intro i a w
    unfold unwind
    split
    · rw [ih]; rfl
    · rfl

theorem map_walk_ok (plat : Platform) (phys_of : Nat → Nat) (domain cached : Nat) (fuel : Nat) :
    ∀ (i : Int) (a p : Nat) (ret : Int) (w : World), i ≤ (fuel : Int) →
      a < 4294967296 → p < 4294967296 →
      (∀ k : Nat, (k : Int) * 4096 < i →
        plat.iommu_map_ret domain (stride_addr a k) (phys_of (stride_addr p k)) = 0) →
      (map_walk plat phys_of domain cached fuel i a p ret w).failed = false ∧
      (map_walk plat phys_of domain cached fuel i a p ret w).temp_iova
        = stride_addr a (granules i.toNat) ∧
      (map_walk plat phys_of domain cached fuel i a p ret w).w.trace =
        w.trace ++ (List.range (granules i.toNat)).map
          (fun k => Call.iommu_map domain (stride_addr a k) (phys_of (stride_addr p k))
            ORDER_4K cached) := by
  induction fuel with
  | zero =>
    intro i a p ret w hf ha hp _
    have : i.toNat = 0 := by omega
    simp [map_walk, this, granules, stride_addr]
    omega
  | succ n ih =>
    intro i a p ret w hf ha hp hok
    unfold map_walk
    by_cases hi : 0 < i
    · rw [if_pos hi]
      have h0 := hok 0 (by simpa using hi)
      have ea : stride_addr a 0 = a := by unfold stride_addr; omega
      have ep : stride_addr p 0 = p := by unfold stride_addr; omega
      rw [ea, ep] at h0
      have e : ∀ x k, stride_addr ((x + SZ_4K) % 4294967296) k = stride_addr x (k + 1) := by
        intro x k
        unfold stride_addr SZ_4K
        omega
      have hg : granules i.toNat = granules (i - 4096).toNat + 1 := by
        unfold granules
        omega
      have := ih (i - 4096) ((a + SZ_4K) % 4294967296) ((p + SZ_4K) % 4294967296) 0
        (iommu_map plat w domain a (phys_of p) ORDER_4K cached).2 (by omega)
        (Nat.mod_lt _ (by norm_num)) (Nat.mod_lt _ (by norm_num))
        (fun k hk => by
          rw [e, e]
          exact hok (k + 1) (by push_cast; omega))
      obtain ⟨t1, t2, t3⟩ := this
      simp only [iommu_map, h0, if_true, ne_eq, not_true_eq_false, if_false] at t1 t2 t3 ⊢
      refine ⟨t1, ?_, ?_⟩
      · rw [t2, e, hg]
      · rw [t3, hg, List.range_succ_eq_map, List.map_cons, List.map_map]
        simp [e, ea, ep, Function.comp_def]
    · rw [if_neg hi]
      have : i.toNat = 0 := by omega
      simp [this, granules, stride_addr]
      omega


/-! ## The active-IOMMU mapping path -/

theorem allocate_ne_zero (plat : Platform) (w : World) (dn pn len align : Nat)
    (h : (msm_allocate_iova_address plat w dn pn len align).1 ≠ 0) :
    plat.pick_iova w.pool dn pn len align ≠ 0 ∧
    range_free w.pool dn pn (plat.pick_iova w.pool dn pn len align) len = true ∧
    msm_allocate_iova_address plat w dn pn len align =
      (plat.pick_iova w.pool dn pn len align,
        { table := w.table
          pool := ⟨dn, pn, plat.pick_iova w.pool dn pn len align, len⟩ :: w.pool
          trace := w.trace ++ [Call.allocate_iova dn pn len align] }) := by
  unfold msm_allocate_iova_address at h ⊢
  by_cases hc : plat.pick_iova w.pool dn pn len align ≠ 0 ∧
      range_free w.pool dn pn (plat.pick_iova w.pool dn pn len align) len = true
  · simp only [hc, and_self, if_true, ne_eq, not_false_eq_true]
  · simp only [hc, if_false] at h
    exact absurd rfl h

theorem range_free_not_mem (pool : List Reservation) (dn pn b len : Nat) (hlen : 0 < len)
    (h : range_free pool dn pn b len = true) : (⟨dn, pn, b, len⟩ : Reservation) ∉ pool := by
  intro hm
  unfold range_free at h
  rw [List.all_eq_true] at h
  have := h _ hm
  simp at this
  omega

theorem unmap_iommu_pool (plat : Platform) (w : World) (data : IommuMap) (domain : Nat)
    (huse : plat.msm_use_iommu = true)
    (hdom : plat.msm_get_iommu_domain data.domain = some domain) :
    (ion_system_heap_unmap_iommu plat w data).pool =
      w.pool.erase ⟨data.domain, data.partition, data.iova_addr, data.mapped_size⟩ := by
  simp [ion_system_heap_unmap_iommu, huse, iommu_map_domain, iommu_map_partition, hdom,
    msm_free_iova_address, unmap_walk_pool]

theorem map_active_unfold (plat : Platform) (phys_of : Nat → Nat) (p0 : Nat) (w : World)
    (buffer : Buffer) (data : IommuMap) (dn pn align len flags domain : Nat)
    (ha : (msm_allocate_iova_address plat w dn pn len align).1 ≠ 0)
    (hd : plat.msm_get_iommu_domain dn = some domain) :
    map_active plat phys_of p0 w buffer data dn pn align len flags =
      (fun (B : Nat) (extra : Nat) (data2 : IommuMap) (r : Walk) =>
        if r.failed = true then
          (r.ret,
            msm_free_iova_address
              (unwind domain buffer.size (buffer.size / SZ_4K + 1) r.i r.temp_iova r.w)
              B dn pn len, data2)
        else if extra ≠ 0 then
          if plat.map_extra_ret domain r.temp_iova extra flags < 0 then
            (r.ret,
              msm_free_iova_address
                (unwind domain buffer.size (buffer.size / SZ_4K + 1) r.i r.temp_iova
                  (msm_iommu_map_extra plat r.w domain r.temp_iova extra flags).2)
                B dn pn len, data2)
          else (0, (msm_iommu_map_extra plat r.w domain r.temp_iova extra flags).2, data2)
        else (0, r.w, data2))
      (plat.pick_iova w.pool dn pn len align)
      (to_ulong ((len : Int) - (buffer.size : Int)))
      { data with mapped_size := len, iova_addr := plat.pick_iova w.pool dn pn len align }
      (map_walk plat phys_of domain (if plat.ION_IS_CACHED flags = true then 1 else 0)
        (to_int buffer.size).toNat (to_int buffer.size)
        (plat.pick_iova w.pool dn pn len align) p0 plat.ret_uninit
        { table := w.table
          pool := ⟨dn, pn, plat.pick_iova w.pool dn pn len align, len⟩ :: w.pool
          trace := w.trace ++ [Call.allocate_iova dn pn len align] }) := by
  obtain ⟨h1, _, h3⟩ := allocate_ne_zero plat w dn pn len align ha
  unfold map_active
  simp only [h3, h1, if_false, hd, msm_iommu_map_extra]

theorem map_active_zero (plat : Platform) (phys_of : Nat → Nat) (p0 : Nat) (w : World)
    (buffer : Buffer) (data : IommuMap) (dn pn align len flags : Nat)
    (hz : (map_active plat phys_of p0 w buffer data dn pn align len flags).1 = 0) :
    plat.pick_iova w.pool dn pn len align ≠ 0 ∧
    range_free w.pool dn pn (plat.pick_iova w.pool dn pn len align) len = true ∧
    (∃ domain, plat.msm_get_iommu_domain dn = some domain) ∧
    (map_active plat phys_of p0 w buffer data dn pn align len flags).2.2 =
      { data with mapped_size := len, iova_addr := plat.pick_iova w.pool dn pn len align } ∧
    ((map_active plat phys_of p0 w buffer data dn pn align len flags).2.1.pool =
        ⟨dn, pn, plat.pick_iova w.pool dn pn len align, len⟩ :: w.pool ∨
      (to_ulong ((len : Int) - (buffer.size : Int)) ≠ 0 ∧
        (map_active plat phys_of p0 w buffer data dn pn align len flags).2.1.pool = w.pool)) := by
  by_cases ha : (msm_allocate_iova_address plat w dn pn len align).1 = 0
  · exfalso
    unfold map_active at hz
    simp only [ha, if_true] at hz
    simp [ENOMEM] at hz
  · obtain ⟨h1, h2, h3⟩ := allocate_ne_zero plat w dn pn len align ha
    refine ⟨h1, h2, ?_⟩
    cases hd : plat.msm_get_iommu_domain dn with
    | none =>
      exfalso
      unfold map_active at hz
      simp only [h3, h1, if_false, hd] at hz
      simp [ENOMEM] at hz
    | some domain =>
      refine ⟨⟨domain, rfl⟩, ?_⟩
      rw [map_active_unfold plat phys_of p0 w buffer data dn pn align len flags domain ha hd]
        at hz ⊢
      have hp := map_walk_pool plat phys_of domain
        (if plat.ION_IS_CACHED flags = true then 1 else 0)
        (to_int buffer.size).toNat (to_int buffer.size)
        (plat.pick_iova w.pool dn pn len align) p0 plat.ret_uninit
        { table := w.table
          pool := ⟨dn, pn, plat.pick_iova w.pool dn pn len align, len⟩ :: w.pool
          trace := w.trace ++ [Call.allocate_iova dn pn len align] }
      have hr := map_walk_failed_ret plat phys_of domain
        (if plat.ION_IS_CACHED flags = true then 1 else 0)
        (to_int buffer.size).toNat (to_int buffer.size)
        (plat.pick_iova w.pool dn pn len align) p0 plat.ret_uninit
        { table := w.table
          pool := ⟨dn, pn, plat.pick_iova w.pool dn pn len align, len⟩ :: w.pool
          trace := w.trace ++ [Call.allocate_iova dn pn len align] }
      generalize map_walk plat phys_of domain
        (if plat.ION_IS_CACHED flags = true then 1 else 0)
        (to_int buffer.size).toNat (to_int buffer.size)
        (plat.pick_iova w.pool dn pn len align) p0 plat.ret_uninit
        { table := w.table
          pool := ⟨dn, pn, plat.pick_iova w.pool dn pn len align, len⟩ :: w.pool
          trace := w.trace ++ [Call.allocate_iova dn pn len align] } = r at hz hp hr ⊢
      simp only at hz hp ⊢
      cases hf : r.failed with
      | true =>
        exfalso
        simp only [hf, if_true] at hz
        exact hr hf hz
      | false =>
        simp only [Bool.false_eq_true, if_false] at hz ⊢
        by_cases hx : to_ulong ((len : Int) - (buffer.size : Int)) = 0
        · simp only [hx, ne_eq, not_true_eq_false, if_false]
          exact ⟨trivial, Or.inl hp⟩
        · simp only [hx, ne_eq, not_false_eq_true, if_true]
          by_cases he : plat.map_extra_ret domain r.temp_iova
              (to_ulong ((len : Int) - (buffer.size : Int))) flags < 0
          · simp only [he, if_true]
            refine ⟨trivial, Or.inr ⟨trivial, ?_⟩⟩
            simp [msm_free_iova_address, unwind_pool, msm_iommu_map_extra, hp]
          · simp only [he, if_false]
            refine ⟨trivial, Or.inl ?_⟩
            simp [msm_iommu_map_extra, hp]


theorem heap_map_iommu_active (heap : HeapType) (plat : Platform) (w : World) (buffer : Buffer)
    (data : IommuMap) (dn pn align len flags : Nat)
    (hc : plat.ION_IS_CACHED flags = true) (hu : plat.msm_use_iommu = true) :
    ∃ (phys_of : Nat → Nat) (p0 : Nat),
      (heap_ops heap).map_iommu plat w buffer data dn pn align len flags =
        map_active plat phys_of p0 w buffer data dn pn align len flags ∧
      (∀ k, phys_of (stride_addr p0 k) = granule_phys plat heap buffer k) ∧
      (buffer.vaddr < 4294967296 → plat.virt_to_phys buffer.vaddr < 4294967296 →
        p0 < 4294967296) := by
  cases heap
  · refine ⟨fun v => plat.page_to_phys (plat.vmalloc_to_page v), buffer.vaddr, ?_, ?_, ?_⟩
    · simp [heap_ops, vmalloc_ops, ion_system_heap_map_iommu, hc, hu]
    · intro k; rfl
    · intro h _; exact h
  · refine ⟨fun p => p, plat.virt_to_phys buffer.vaddr, ?_, ?_, ?_⟩
    · simp [heap_ops, kmalloc_ops, ion_system_contig_heap_map_iommu, hc, hu]
    · intro k; rfl
    · intro _ h; exact h

theorem unmap_iommu_active_eq (plat : Platform) (w : World) (data : IommuMap) (domain : Nat)
    (huse : plat.msm_use_iommu = true)
    (hdom : plat.msm_get_iommu_domain data.domain = some domain)
    (hmax : data.mapped_size ≤ 2147483647) :
    ion_system_heap_unmap_iommu plat w data =
      msm_free_iova_address
        (unmap_walk domain data.mapped_size (data.mapped_size : Int) data.iova_addr w)
        data.iova_addr data.domain data.partition data.mapped_size := by
  have hi : to_int data.mapped_size = (data.mapped_size : Int) :=
    to_int_of_lt _ (by omega)
  simp [ion_system_heap_unmap_iommu, huse, iommu_map_domain, iommu_map_partition, hdom, hi]

theorem unmap_iommu_table_none (plat : Platform) (w : World) (data : IommuMap) (domain : Nat)
    (huse : plat.msm_use_iommu = true)
    (hdom : plat.msm_get_iommu_domain data.domain = some domain)
    (hmax : data.mapped_size ≤ 2147483647) (haddr : data.iova_addr < 4294967296)
    (k : Nat) (hk : k * 4096 < data.mapped_size) :
    (ion_system_heap_unmap_iommu plat w data).table domain (stride_addr data.iova_addr k)
      = none := by
  rw [unmap_iommu_active_eq plat w data domain huse hdom hmax]
  show (unmap_walk domain data.mapped_size (data.mapped_size : Int) data.iova_addr w).table
    domain (stride_addr data.iova_addr k) = none
  apply unmap_walk_table _ _ _ _ _ _ (le_refl _) haddr
  omega

theorem map_active_ok (plat : Platform) (phys_of : Nat → Nat) (p0 : Nat) (w : World)
    (buffer : Buffer) (data : IommuMap) (dn pn align len flags B domain : Nat)
    (hc : plat.ION_IS_CACHED flags = true)
    (hlen : buffer.size ≤ len) (hmax : buffer.size ≤ 2147483647) (hl32 : len < 4294967296)
    (hp0 : p0 < 4294967296)
    (hB : (msm_allocate_iova_address plat w dn pn len align).1 = B) (hB0 : B ≠ 0)
    (hB32 : B < 4294967296)
    (hd : plat.msm_get_iommu_domain dn = some domain)
    (hmaps : ∀ k, k < granules buffer.size →
      plat.iommu_map_ret domain (stride_addr B k) (phys_of (stride_addr p0 k)) = 0)
    (hextra : buffer.size < len →
      0 ≤ plat.map_extra_ret domain (stride_addr B (granules buffer.size))
        (len - buffer.size) flags) :
    (map_active plat phys_of p0 w buffer data dn pn align len flags).1 = 0 ∧
    (map_active plat phys_of p0 w buffer data dn pn align len flags).2.2 =
      { data with mapped_size := len, iova_addr := B } ∧
    (map_active plat phys_of p0 w buffer data dn pn align len flags).2.1.trace =
      w.trace ++ [Call.allocate_iova dn pn len align]
        ++ (List.range (granules buffer.size)).map
            (fun k => Call.iommu_map domain (stride_addr B k) (phys_of (stride_addr p0 k))
              ORDER_4K 1)
        ++ (if buffer.size < len then
              [Call.map_extra domain (stride_addr B (granules buffer.size))
                (len - buffer.size) flags]
            else []) := by
  have ha : (msm_allocate_iova_address plat w dn pn len align).1 ≠ 0 := by rw [hB]; exact hB0
  obtain ⟨_, _, h3⟩ := allocate_ne_zero plat w dn pn len align ha
  have hpick : plat.pick_iova w.pool dn pn len align = B := by
    rw [h3] at hB
    exact hB
  rw [map_active_unfold plat phys_of p0 w buffer data dn pn align len flags domain ha hd]
  rw [hpick]
  have hi : to_int buffer.size = (buffer.size : Int) := to_int_of_lt _ (by omega)
  rw [hi, Int.toNat_ofNat]
  simp only [hc, if_true]
  obtain ⟨r1, r2, r3⟩ := map_walk_ok plat phys_of domain 1 buffer.size (buffer.size : Int) B p0
    plat.ret_uninit
    { table := w.table, pool := ⟨dn, pn, B, len⟩ :: w.pool,
      trace := w.trace ++ [Call.allocate_iova dn pn len align] }
    (le_refl _) hB32 hp0
    (fun k hk => hmaps k (by unfold granules; omega))
  rw [Int.toNat_ofNat] at r2 r3
  generalize map_walk plat phys_of domain 1 buffer.size (buffer.size : Int) B p0
    plat.ret_uninit
    { table := w.table, pool := ⟨dn, pn, B, len⟩ :: w.pool,
      trace := w.trace ++ [Call.allocate_iova dn pn len align] } = r at r1 r2 r3 ⊢
  simp only at r3 ⊢
  have hx : to_ulong ((len : Int) - (buffer.size : Int)) = len - buffer.size := by
    unfold to_ulong
    omega
  rw [hx]
  simp only [r1, Bool.false_eq_true, if_false]
  by_cases hlt : buffer.size < len
  · have hne : len - buffer.size ≠ 0 := by omega
    have hex := hextra hlt
    rw [← r2] at hex ⊢
    simp only [hne, ne_eq, not_false_eq_true, if_true, not_lt.mpr hex, if_false, hlt]
    refine ⟨trivial, trivial, ?_⟩
    simp [msm_iommu_map_extra, r3]
  · have he : len - buffer.size = 0 := by omega
    simp only [he, ne_eq, not_true_eq_false, if_false, hlt]
    refine ⟨trivial, trivial, ?_⟩
    simp [r3]

/-! ## The claims -/

/-- Claim C1 (the code departs from it).  Evaluation of both `map_iommu`
functions on a two-page buffer when `iommu_map` succeeds for granule 0 and fails
with `-ENOMEM` at granule 1: the call returns that error and releases the
reservation, but the loop at `out2` starts at the failed granule and walks down
one step only, so it unmaps device address `69632` (never mapped) and leaves
granule 0 at the base `65536` mapped. -/
theorem map_iommu_unwind_misses_first_granule :
    (demo_map_fails_at 69632).iommu_map_ret 1 65536 3489660928 = 0 ∧
    (demo_map_fails_at 69632).iommu_map_ret 1 69632 3489665024 = -ENOMEM ∧
    (∀ heap : HeapType,
      ((heap_ops heap).map_iommu (demo_map_fails_at 69632) empty_world (demo_buffer 8192)
        (demo_record 1 0) 1 0 4096 8192 1).1 = -ENOMEM ∧
      ((heap_ops heap).map_iommu (demo_map_fails_at 69632) empty_world (demo_buffer 8192)
        (demo_record 1 0) 1 0 4096 8192 1).2.1.pool = [] ∧
      ((heap_ops heap).map_iommu (demo_map_fails_at 69632) empty_world (demo_buffer 8192)
        (demo_record 1 0) 1 0 4096 8192 1).2.1.table 1 65536 ≠ none) ∧
    ((heap_ops HeapType.ION_HEAP_TYPE_SYSTEM).map_iommu (demo_map_fails_at 69632) empty_world
      (demo_buffer 8192) (demo_record 1 0) 1 0 4096 8192 1).2.1.trace =
      [Call.allocate_iova 1 0 8192 4096,
       Call.iommu_map 1 65536 3489660928 0 1,
       Call.iommu_map 1 69632 3489665024 0 1,
       Call.iommu_unmap 1 69632 0,
       Call.free_iova 65536 1 0 8192] := by
  refine ⟨by decide, by decide, ?_, by decide⟩
  intro heap
  cases heap <;> decide

/-- Claim C2 (the code departs from it).  Evaluation of both `map_iommu`
functions when every granule maps and `msm_iommu_map_extra` fails: `ret` still
holds the `0` of the last `iommu_map`, so the call returns `0`; the reservation
is released; granule 0 stays mapped.  For a size that is not a multiple of 4096
(here 5000) the counter `i` is negative at `out2`, the unsigned comparison
`i < size` fails at once, and no granule is unmapped at all. -/
theorem map_iommu_extra_failure_returns_zero :
    demo_extra_fails.map_extra_ret 1 69632 4096 1 < 0 ∧
    (∀ heap : HeapType,
      ((heap_ops heap).map_iommu demo_extra_fails empty_world (demo_buffer 4096)
        (demo_record 1 0) 1 0 4096 8192 1).1 = 0 ∧
      ((heap_ops heap).map_iommu demo_extra_fails empty_world (demo_buffer 4096)
        (demo_record 1 0) 1 0 4096 8192 1).2.1.pool = [] ∧
      ((heap_ops heap).map_iommu demo_extra_fails empty_world (demo_buffer 4096)
        (demo_record 1 0) 1 0 4096 8192 1).2.1.table 1 65536 ≠ none) ∧
    ((heap_ops HeapType.ION_HEAP_TYPE_SYSTEM).map_iommu demo_extra_fails empty_world
      (demo_buffer 4096) (demo_record 1 0) 1 0 4096 8192 1).2.1.trace =
      [Call.allocate_iova 1 0 8192 4096,
       Call.iommu_map 1 65536 3489660928 0 1,
       Call.map_extra 1 69632 4096 1,
       Call.iommu_unmap 1 69632 0,
       Call.free_iova 65536 1 0 8192] ∧
    ((heap_ops HeapType.ION_HEAP_TYPE_SYSTEM).map_iommu demo_extra_fails empty_world
      (demo_buffer 5000) (demo_record 1 0) 1 0 4096 12288 1).2.1.trace =
      [Call.allocate_iova 1 0 12288 4096,
       Call.iommu_map 1 65536 3489660928 0 1,
       Call.iommu_map 1 69632 3489665024 0 1,
       Call.map_extra 1 73728 7288 1,
       Call.free_iova 65536 1 0 12288] := by
  refine ⟨by decide, ?_, by decide, by decide⟩
  intro heap
  cases heap <;> decide

/-- Claim C3 (amended).  With an active IOMMU and `requested_length >= size`,
when the record handed to `map_iommu` already carries the domain and partition
numbers that are passed to the call (the call does not write them) and the call
returns `0`, unmapping the resulting record leaves the address pool exactly as
it was before the map call; the record holds the reserved base and the
requested length, which is what the unmap call releases. -/
theorem map_unmap_restores_pool (heap : HeapType) (plat : Platform) (w : World)
    (buffer : Buffer) (data : IommuMap) (dn pn align len flags : Nat)
    (hu : plat.msm_use_iommu = true) (hlen : buffer.size ≤ len)
    (hdn : data.domain = dn) (hpn : data.partition = pn)
    (hz : ((heap_ops heap).map_iommu plat w buffer data dn pn align len flags).1 = 0) :
    ((heap_ops heap).unmap_iommu plat
        ((heap_ops heap).map_iommu plat w buffer data dn pn align len flags).2.1
        ((heap_ops heap).map_iommu plat w buffer data dn pn align len flags).2.2).pool
      = w.pool ∧
    ((heap_ops heap).map_iommu plat w buffer data dn pn align len flags).2.2 =
      { data with mapped_size := len,
                  iova_addr := (msm_allocate_iova_address plat w dn pn len align).1 } := by
  have hc : plat.ION_IS_CACHED flags = true := by
    by_contra hc
    have hc2 : plat.ION_IS_CACHED flags = false := by simpa using hc
    cases heap <;>
      simp [heap_ops, vmalloc_ops, kmalloc_ops, ion_system_heap_map_iommu,
        ion_system_contig_heap_map_iommu, hc2, EINVAL] at hz
  obtain ⟨phys_of, p0, he, _, _⟩ := heap_map_iommu_active heap plat w buffer data dn pn align len
    flags hc hu
  rw [he] at hz ⊢
  obtain ⟨h1, h2, ⟨domain, hd⟩, h4, h5⟩ :=
    map_active_zero plat phys_of p0 w buffer data dn pn align len flags hz
  have hun : (heap_ops heap).unmap_iommu = ion_system_heap_unmap_iommu := by
    cases heap <;> rfl
  have ha : (msm_allocate_iova_address plat w dn pn len align).1 =
      plat.pick_iova w.pool dn pn len align := by
    simp [msm_allocate_iova_address, h1, h2]
  rw [hun, h4, ha]
  refine ⟨?_, rfl⟩
  rw [unmap_iommu_pool plat _ _ domain hu (by simpa [hdn] using hd)]
  simp only [hdn, hpn]
  rcases h5 with h5 | ⟨hx, h5⟩
  · rw [h5]
    simp
  · rw [h5]
    apply List.erase_of_not_mem
    apply range_free_not_mem _ _ _ _ _ _ h2
    by_contra hl
    have : len = 0 := by omega
    have : buffer.size = 0 := by omega
    apply hx
    simp [to_ulong, *]

/-- Witness for C3: a 3-page paged buffer mapped with a requested length of 4
pages, then unmapped. -/
theorem map_unmap_restores_pool_witness :
    ((heap_ops HeapType.ION_HEAP_TYPE_SYSTEM).unmap_iommu demo_platform
        ((heap_ops HeapType.ION_HEAP_TYPE_SYSTEM).map_iommu demo_platform empty_world
          (demo_buffer 12288) (demo_record 1 0) 1 0 4096 16384 1).2.1
        ((heap_ops HeapType.ION_HEAP_TYPE_SYSTEM).map_iommu demo_platform empty_world
          (demo_buffer 12288) (demo_record 1 0) 1 0 4096 16384 1).2.2).pool
      = empty_world.pool ∧
    ((heap_ops HeapType.ION_HEAP_TYPE_SYSTEM).map_iommu demo_platform empty_world
        (demo_buffer 12288) (demo_record 1 0) 1 0 4096 16384 1).2.2 =
      { demo_record 1 0 with
        mapped_size := 16384,
        iova_addr := (msm_allocate_iova_address demo_platform empty_world 1 0 16384 4096).1 } :=
  map_unmap_restores_pool HeapType.ION_HEAP_TYPE_SYSTEM demo_platform empty_world
    (demo_buffer 12288) (demo_record 1 0) 1 0 4096 16384 1 (by decide) (by decide) rfl rfl
    (by decide)

/-- Counterexample for C3 as stated: the record carries domain `2` while the
call is made for domain `1`.  The map call succeeds and reserves in domain `1`;
the unmap call releases in the record's domain `2`, so the reservation of
domain `1` is still in the pool. -/
theorem map_unmap_restores_pool_counterexample :
    demo_platform.msm_use_iommu = true ∧
    ((heap_ops HeapType.ION_HEAP_TYPE_SYSTEM).map_iommu demo_platform empty_world
      (demo_buffer 12288) (demo_record 2 0) 1 0 4096 16384 1).1 = 0 ∧
    ((heap_ops HeapType.ION_HEAP_TYPE_SYSTEM).unmap_iommu demo_platform
      ((heap_ops HeapType.ION_HEAP_TYPE_SYSTEM).map_iommu demo_platform empty_world
        (demo_buffer 12288) (demo_record 2 0) 1 0 4096 16384 1).2.1
      ((heap_ops HeapType.ION_HEAP_TYPE_SYSTEM).map_iommu demo_platform empty_world
        (demo_buffer 12288) (demo_record 2 0) 1 0 4096 16384 1).2.2).pool
      = [⟨1, 0, 65536, 16384⟩] ∧
    empty_world.pool = [] := by
  decide

/-- Claim C4 (amended).  For either heap, cached flags, an active IOMMU, a buffer
with `size <= requested_length` and `size <= 2^31 - 1`, a reservation returning
the base `B != 0`, a resolvable domain, and every `iommu_map` and map-extra call
succeeding: the call returns `0`; after the reservation it makes exactly
`ceil(size / 4096)` granule mappings, in ascending order, the `k`-th from device
address `B + k * 4096` to the physical address of the buffer's `k`-th granule with
the cached attribute, followed by the padding call when
`requested_length > size`; and the record gets `iova_addr = B` and
`mapped_size = requested_length`, its domain and partition numbers being left
as the caller set them. -/
theorem map_iommu_success (heap : HeapType) (plat : Platform) (w : World) (buffer : Buffer)
    (data : IommuMap) (dn pn align len flags B domain : Nat)
    (hc : plat.ION_IS_CACHED flags = true) (hu : plat.msm_use_iommu = true)
    (hlen : buffer.size ≤ len) (hmax : buffer.size ≤ 2147483647)
    (hl32 : len < 4294967296)
    (hv : buffer.vaddr < 4294967296) (hvp : plat.virt_to_phys buffer.vaddr < 4294967296)
    (hB : (msm_allocate_iova_address plat w dn pn len align).1 = B) (hB0 : B ≠ 0)
    (hB32 : B < 4294967296)
    (hd : plat.msm_get_iommu_domain dn = some domain)
    (hmaps : ∀ k, k < granules buffer.size →
      plat.iommu_map_ret domain (stride_addr B k) (granule_phys plat heap buffer k) = 0)
    (hextra : buffer.size < len →
      0 ≤ plat.map_extra_ret domain (stride_addr B (granules buffer.size))
        (len - buffer.size) flags) :
    ((heap_ops heap).map_iommu plat w buffer data dn pn align len flags).1 = 0 ∧
    ((heap_ops heap).map_iommu plat w buffer data dn pn align len flags).2.2 =
      { data with mapped_size := len, iova_addr := B } ∧
    ((heap_ops heap).map_iommu plat w buffer data dn pn align len flags).2.1.trace =
      w.trace ++ [Call.allocate_iova dn pn len align]
        ++ (List.range (granules buffer.size)).map
            (fun k => Call.iommu_map domain (stride_addr B k) (granule_phys plat heap buffer k)
              ORDER_4K 1)
        ++ (if buffer.size < len then
              [Call.map_extra domain (stride_addr B (granules buffer.size))
                (len - buffer.size) flags]
            else []) := by
  obtain ⟨phys_of, p0, he, hg, hp⟩ := heap_map_iommu_active heap plat w buffer data dn pn align
    len flags hc hu
  rw [he]
  have h := map_active_ok plat phys_of p0 w buffer data dn pn align len flags B domain hc hlen
    hmax hl32 (hp hv hvp) hB hB0 hB32 hd (fun k hk => by rw [hg]; exact hmaps k hk) hextra
  simp only [hg] at h
  exact h

/-- Witness for C4: a 3-page paged buffer mapped with a requested length of 4
pages. -/
theorem map_iommu_success_witness :
    ((heap_ops HeapType.ION_HEAP_TYPE_SYSTEM).map_iommu demo_platform empty_world
      (demo_buffer 12288) (demo_record 1 0) 1 0 4096 16384 1).1 = 0 ∧
    ((heap_ops HeapType.ION_HEAP_TYPE_SYSTEM).map_iommu demo_platform empty_world
      (demo_buffer 12288) (demo_record 1 0) 1 0 4096 16384 1).2.2 = ⟨65536, 16384, 1, 0⟩ ∧
    ((heap_ops HeapType.ION_HEAP_TYPE_SYSTEM).map_iommu demo_platform empty_world
      (demo_buffer 12288) (demo_record 1 0) 1 0 4096 16384 1).2.1.trace =
      [Call.allocate_iova 1 0 16384 4096,
       Call.iommu_map 1 65536 3489660928 0 1,
       Call.iommu_map 1 69632 3489665024 0 1,
       Call.iommu_map 1 73728 3489669120 0 1,
       Call.map_extra 1 77824 4096 1] :=
  map_iommu_success HeapType.ION_HEAP_TYPE_SYSTEM demo_platform empty_world
    (demo_buffer 12288) (demo_record 1 0) 1 0 4096 16384 1 65536 1
    (by decide) (by decide) (by decide) (by decide) (by decide) (by decide) (by decide)
    (by decide) (by decide) (by decide) (by decide) (fun _ _ => rfl)
    (fun _ => by decide)

/-- Counterexample for C4 as stated.  First, a buffer of `2^31` bytes: the `int`
counter starts negative, the call returns `0` having made no granule mapping,
while `ceil(size / 4096)` is 524288.  Second, a record carrying domain `2`
passed to a call for domain `1`: the call succeeds and the record still carries
domain `2`. -/
theorem map_iommu_success_counterexample :
    (((heap_ops HeapType.ION_HEAP_TYPE_SYSTEM).map_iommu demo_platform empty_world
        (demo_buffer 2147483648) (demo_record 1 0) 1 0 4096 2147483648 1).1 = 0 ∧
      ((heap_ops HeapType.ION_HEAP_TYPE_SYSTEM).map_iommu demo_platform empty_world
        (demo_buffer 2147483648) (demo_record 1 0) 1 0 4096 2147483648 1).2.1.trace =
        [Call.allocate_iova 1 0 2147483648 4096] ∧
      granules (demo_buffer 2147483648).size = 524288) ∧
    (((heap_ops HeapType.ION_HEAP_TYPE_SYSTEM).map_iommu demo_platform empty_world
        (demo_buffer 8192) (demo_record 2 0) 1 0 4096 8192 1).1 = 0 ∧
      ((heap_ops HeapType.ION_HEAP_TYPE_SYSTEM).map_iommu demo_platform empty_world
        (demo_buffer 8192) (demo_record 2 0) 1 0 4096 8192 1).2.2.domain = 2) := by
  decide

/-- Claim C5 (amended).  `ion_system_heap_unmap_iommu` changes nothing when no
IOMMU is active.  With an active IOMMU, when the record's domain number resolves
to a domain, for every record with `0 < mapped_size <= 2^31 - 1` it removes the
page-table entry at `iova_addr + k * 4096` for every `k < ceil(mapped_size / 4096)`
and then releases the range `(iova_addr, mapped_size)` to the pool of the
record's domain and partition; the calls made are exactly these unmaps, in
ascending order, followed by the release. -/
theorem unmap_iommu_effect (plat : Platform) (w : World) (data : IommuMap) :
    (plat.msm_use_iommu = false → ion_system_heap_unmap_iommu plat w data = w) ∧
    (∀ domain : Nat, plat.msm_use_iommu = true →
      plat.msm_get_iommu_domain data.domain = some domain →
      0 < data.mapped_size → data.mapped_size ≤ 2147483647 → data.iova_addr < 4294967296 →
      (∀ k, k < granules data.mapped_size →
        (ion_system_heap_unmap_iommu plat w data).table domain (stride_addr data.iova_addr k)
          = none) ∧
      (ion_system_heap_unmap_iommu plat w data).pool =
        w.pool.erase ⟨data.domain, data.partition, data.iova_addr, data.mapped_size⟩ ∧
      (ion_system_heap_unmap_iommu plat w data).trace =
        w.trace ++ (List.range (granules data.mapped_size)).map
            (fun k => Call.iommu_unmap domain (stride_addr data.iova_addr k) ORDER_4K)
          ++ [Call.free_iova data.iova_addr data.domain data.partition data.mapped_size]) := by
  constructor
  · intro h
    simp [ion_system_heap_unmap_iommu, h]
  · intro domain huse hdom hpos hmax haddr
    have hi : to_int data.mapped_size = (data.mapped_size : Int) :=
      to_int_of_lt _ (by omega)
    have hu : ion_system_heap_unmap_iommu plat w data =
        msm_free_iova_address
          (unmap_walk domain data.mapped_size (data.mapped_size : Int) data.iova_addr w)
          data.iova_addr data.domain data.partition data.mapped_size := by
      simp [ion_system_heap_unmap_iommu, huse, iommu_map_domain, iommu_map_partition, hdom, hi]
    rw [hu]
    refine ⟨?_, ?_, ?_⟩
    · intro k hk
      show (unmap_walk domain data.mapped_size (data.mapped_size : Int) data.iova_addr w).table
        domain (stride_addr data.iova_addr k) = none
      apply unmap_walk_table _ _ _ _ _ _ (le_refl _) haddr
      unfold granules at hk
      omega
    · show (unmap_walk domain data.mapped_size (data.mapped_size : Int) data.iova_addr w).pool.erase
        _ = _
      rw [unmap_walk_pool]
    · show (unmap_walk domain data.mapped_size (data.mapped_size : Int) data.iova_addr w).trace
        ++ _ = _
      rw [unmap_walk_trace _ _ _ _ _ (le_refl _) haddr]
      simp

/-- Witness for C5: without an IOMMU the mapped demo world is left alone; with
one, unmapping the two-page demo mapping clears both granules and empties the
pool. -/
theorem unmap_iommu_effect_witness :
    ion_system_heap_unmap_iommu demo_no_iommu demo_mapped.2.1 demo_mapped.2.2
      = demo_mapped.2.1 ∧
    ((∀ k, k < granules demo_mapped.2.2.mapped_size →
        (ion_system_heap_unmap_iommu demo_platform demo_mapped.2.1 demo_mapped.2.2).table 1
          (stride_addr demo_mapped.2.2.iova_addr k) = none) ∧
      (ion_system_heap_unmap_iommu demo_platform demo_mapped.2.1 demo_mapped.2.2).pool =
        demo_mapped.2.1.pool.erase
          ⟨demo_mapped.2.2.domain, demo_mapped.2.2.partition, demo_mapped.2.2.iova_addr,
            demo_mapped.2.2.mapped_size⟩ ∧
      (ion_system_heap_unmap_iommu demo_platform demo_mapped.2.1 demo_mapped.2.2).trace =
        demo_mapped.2.1.trace ++ (List.range (granules demo_mapped.2.2.mapped_size)).map
            (fun k => Call.iommu_unmap 1 (stride_addr demo_mapped.2.2.iova_addr k) ORDER_4K)
          ++ [Call.free_iova demo_mapped.2.2.iova_addr demo_mapped.2.2.domain
                demo_mapped.2.2.partition demo_mapped.2.2.mapped_size]) :=
  ⟨(unmap_iommu_effect demo_no_iommu demo_mapped.2.1 demo_mapped.2.2).1 rfl,
   (unmap_iommu_effect demo_platform demo_mapped.2.1 demo_mapped.2.2).2 1 rfl (by decide)
     (by decide) (by decide) (by decide)⟩

/-- Counterexample for C5 as stated: an active IOMMU and a record of 4096 bytes
whose domain number `9` does not resolve.  The call returns at the guard: it
makes no call and the range stays reserved. -/
theorem unmap_iommu_effect_counterexample :
    demo_platform.msm_use_iommu = true ∧
    (0 < (⟨65536, 4096, 9, 0⟩ : IommuMap).mapped_size ∧
      (⟨65536, 4096, 9, 0⟩ : IommuMap).mapped_size ≤ 2147483647) ∧
    (ion_system_heap_unmap_iommu demo_platform stale_world ⟨65536, 4096, 9, 0⟩).pool
      = [⟨9, 0, 65536, 4096⟩] ∧
    (ion_system_heap_unmap_iommu demo_platform stale_world ⟨65536, 4096, 9, 0⟩).trace = [] := by
  decide

/-- Claim C6 (amended).  With an active IOMMU, `size <= requested_length <=
2^31 - 1` and a record that carries the domain number passed to the call, after a
map call that returned `0` and an unmap call on the resulting record, no
page-table entry is left at any device address the map call installed: every
`iova_addr + k * 4096` with `k < ceil(size / 4096)` is unmapped. -/
theorem unmap_reverses_map (heap : HeapType) (plat : Platform) (w : World)
    (buffer : Buffer) (data : IommuMap) (dn pn align len flags domain : Nat)
    (hu : plat.msm_use_iommu = true) (hlen : buffer.size ≤ len) (hmax : len ≤ 2147483647)
    (hdn : data.domain = dn) (hd : plat.msm_get_iommu_domain dn = some domain)
    (haddr : ((heap_ops heap).map_iommu plat w buffer data dn pn align len flags).2.2.iova_addr
      < 4294967296)
    (hz : ((heap_ops heap).map_iommu plat w buffer data dn pn align len flags).1 = 0) :
    ∀ k, k < granules buffer.size →
      ((heap_ops heap).unmap_iommu plat
          ((heap_ops heap).map_iommu plat w buffer data dn pn align len flags).2.1
          ((heap_ops heap).map_iommu plat w buffer data dn pn align len flags).2.2).table
        domain
        (stride_addr
          ((heap_ops heap).map_iommu plat w buffer data dn pn align len flags).2.2.iova_addr k)
        = none := by
  intro k hk
  have hc : plat.ION_IS_CACHED flags = true := by
    by_contra hc
    have hc2 : plat.ION_IS_CACHED flags = false := by simpa using hc
    cases heap <;>
      simp [heap_ops, vmalloc_ops, kmalloc_ops, ion_system_heap_map_iommu,
        ion_system_contig_heap_map_iommu, hc2, EINVAL] at hz
  obtain ⟨phys_of, p0, he, _, _⟩ := heap_map_iommu_active heap plat w buffer data dn pn align len
    flags hc hu
  rw [he] at hz haddr ⊢
  obtain ⟨_, _, _, h4, _⟩ :=
    map_active_zero plat phys_of p0 w buffer data dn pn align len flags hz
  have hun : (heap_ops heap).unmap_iommu = ion_system_heap_unmap_iommu := by
    cases heap <;> rfl
  rw [hun]
  rw [h4] at haddr
  rw [h4]
  apply unmap_iommu_table_none plat _ _ domain hu (by simpa [hdn] using hd) (by simpa using hmax)
    haddr
  show k * 4096 < len
  unfold granules at hk
  omega

/-- Witness for C6: a 3-page paged buffer mapped with a requested length of 4
pages, then unmapped; the three granules are unmapped again. -/
theorem unmap_reverses_map_witness :
    ((heap_ops HeapType.ION_HEAP_TYPE_SYSTEM).unmap_iommu demo_platform
        ((heap_ops HeapType.ION_HEAP_TYPE_SYSTEM).map_iommu demo_platform empty_world
          (demo_buffer 12288) (demo_record 1 0) 1 0 4096 16384 1).2.1
        ((heap_ops HeapType.ION_HEAP_TYPE_SYSTEM).map_iommu demo_platform empty_world
          (demo_buffer 12288) (demo_record 1 0) 1 0 4096 16384 1).2.2).table 1
      (stride_addr
        ((heap_ops HeapType.ION_HEAP_TYPE_SYSTEM).map_iommu demo_platform empty_world
          (demo_buffer 12288) (demo_record 1 0) 1 0 4096 16384 1).2.2.iova_addr 2) = none :=
  unmap_reverses_map HeapType.ION_HEAP_TYPE_SYSTEM demo_platform empty_world
    (demo_buffer 12288) (demo_record 1 0) 1 0 4096 16384 1 1 (by decide) (by decide) (by decide)
    rfl rfl (by decide) (by decide) 2 (by decide)

/-- Counterexample for C6 as stated.  First, a requested length of `2^31`: the
`int` counter of the unmap loop starts negative, the loop does not run, and the
granule installed at the base `65536` is still mapped after unmap.  Second, a
record carrying domain `2` passed to a map call for domain `1`: unmap walks
domain `2`, and the granule installed in domain `1` is still mapped. -/
theorem unmap_reverses_map_counterexample :
    (((heap_ops HeapType.ION_HEAP_TYPE_SYSTEM).map_iommu demo_platform empty_world
        (demo_buffer 4096) (demo_record 1 0) 1 0 4096 2147483648 1).1 = 0 ∧
      ((heap_ops HeapType.ION_HEAP_TYPE_SYSTEM).unmap_iommu demo_platform
        ((heap_ops HeapType.ION_HEAP_TYPE_SYSTEM).map_iommu demo_platform empty_world
          (demo_buffer 4096) (demo_record 1 0) 1 0 4096 2147483648 1).2.1
        ((heap_ops HeapType.ION_HEAP_TYPE_SYSTEM).map_iommu demo_platform empty_world
          (demo_buffer 4096) (demo_record 1 0) 1 0 4096 2147483648 1).2.2).table 1 65536
        = some ⟨3489660928, 1⟩) ∧
    (((heap_ops HeapType.ION_HEAP_TYPE_SYSTEM).map_iommu demo_platform empty_world
        (demo_buffer 4096) (demo_record 2 0) 1 0 4096 8192 1).1 = 0 ∧
      ((heap_ops HeapType.ION_HEAP_TYPE_SYSTEM).unmap_iommu demo_platform
        ((heap_ops HeapType.ION_HEAP_TYPE_SYSTEM).map_iommu demo_platform empty_world
          (demo_buffer 4096) (demo_record 2 0) 1 0 4096 8192 1).2.1
        ((heap_ops HeapType.ION_HEAP_TYPE_SYSTEM).map_iommu demo_platform empty_world
          (demo_buffer 4096) (demo_record 2 0) 1 0 4096 8192 1).2.2).table 1 65536
        = some ⟨3489660928, 1⟩) := by
  decide

/-- Claim C7.  For either heap, `map_iommu` called with flags that do not request
cached semantics returns `-EINVAL` and leaves the world (page tables, address
pool, calls made) and the record exactly as they were, whether or not an IOMMU
is active. -/
theorem map_iommu_uncached_rejected (heap : HeapType) (plat : Platform) (w : World)
    (buffer : Buffer) (data : IommuMap) (domain_num partition_num align iova_length flags : Nat)
    (huncached : plat.ION_IS_CACHED flags = false) :
    (heap_ops heap).map_iommu plat w buffer data domain_num partition_num align iova_length flags
      = (-EINVAL, w, data) := by
  cases heap <;>
    simp [heap_ops, vmalloc_ops, kmalloc_ops, ion_system_heap_map_iommu,
      ion_system_contig_heap_map_iommu, huncached]

/-- Witness for C7: uncached flags on the paged heap with an IOMMU and on the
contiguous heap without one. -/
theorem map_iommu_uncached_rejected_witness :
    demo_platform.ION_IS_CACHED 0 = false ∧
    (heap_ops HeapType.ION_HEAP_TYPE_SYSTEM).map_iommu demo_platform empty_world
      (demo_buffer 8192) (demo_record 1 0) 1 0 4096 8192 0
      = (-EINVAL, empty_world, demo_record 1 0) ∧
    (heap_ops HeapType.ION_HEAP_TYPE_SYSTEM_CONTIG).map_iommu
      demo_no_iommu empty_world
      (demo_buffer 8192) (demo_record 1 0) 1 0 4096 8192 0
      = (-EINVAL, empty_world, demo_record 1 0) :=
  ⟨by decide,
   map_iommu_uncached_rejected _ _ _ _ _ _ _ _ _ _ (by decide),
   map_iommu_uncached_rejected _ _ _ _ _ _ _ _ _ _ (by decide)⟩

/-- Claim C8.  For a paged buffer of positive size whose descriptor storage can
be allocated (the call does not return `ERR_PTR(-ENOMEM)`),
`ion_system_heap_map_dma` returns a table exactly when every page-sized stride
of the virtual range resolves to a page; the table then has
`ceil(size / PAGE_SIZE)` descriptors, the `k`-th being the page of
`priv_virt + k * PAGE_SIZE` with length `PAGE_SIZE` and offset `0`, so its total
length is the page-aligned size; and when some stride does not resolve the call
returns `NULL`, a failure and no table. -/
theorem map_dma_paged_descriptors (plat : Platform) (buffer : Buffer)
    (hsize : 0 < buffer.size) (hs32 : buffer.size < 4294967296)
    (hv : buffer.priv_virt < 4294967296)
    (hstore : ion_system_heap_map_dma plat buffer ≠ SgResult.err_ptr (-ENOMEM)) :
    ((∃ l, ion_system_heap_map_dma plat buffer = SgResult.table l) ↔
      ∀ k, k < granules buffer.size →
        plat.vmalloc_to_page (stride_addr buffer.priv_virt k) ≠ 0) ∧
    (∀ l, ion_system_heap_map_dma plat buffer = SgResult.table l →
      l = (List.range (granules buffer.size)).map
          (fun k => (⟨plat.vmalloc_to_page (stride_addr buffer.priv_virt k), PAGE_SIZE, 0⟩ :
            Scatterlist)) ∧
      l.length = granules buffer.size ∧
      sg_total_length l = PAGE_ALIGN buffer.size) ∧
    ((∃ k, k < granules buffer.size ∧
        plat.vmalloc_to_page (stride_addr buffer.priv_virt k) = 0) →
      ion_system_heap_map_dma plat buffer = SgResult.null) := by
  have hu := map_dma_unfold plat buffer hs32 hv hstore
  have hw := map_dma_npages plat buffer hs32 hstore
  have hal : PAGE_ALIGN buffer.size = granules buffer.size * PAGE_SIZE := by
    unfold PAGE_ALIGN PAGE_SIZE granules
    omega
  by_cases hall : ∀ k, k < granules buffer.size →
      plat.vmalloc_to_page (stride_addr buffer.priv_virt k) ≠ 0
  · have hl := map_dma_loop_some plat buffer.priv_virt (granules buffer.size)
      (granules buffer.size) 0 (by omega) (fun k _ hk => hall k hk)
    rw [hl] at hu
    refine ⟨⟨fun _ => hall, fun _ => ⟨_, hu⟩⟩, ?_, ?_⟩
    · intro l hl2
      rw [hu] at hl2
      injection hl2 with hl3
      subst hl3
      refine ⟨rfl, by simp, ?_⟩
      rw [hal]
      exact sg_total_length_pages _ _
    · intro ⟨k, hk, hz⟩
      exact absurd hz (hall k hk)
  · have hex : ∃ k, 0 ≤ k ∧ k < granules buffer.size ∧
        plat.vmalloc_to_page (stride_addr buffer.priv_virt k) = 0 := by
      by_contra hc
      apply hall
      intro k hk hz
      exact hc ⟨k, Nat.zero_le k, hk, hz⟩
    have hl := map_dma_loop_none plat buffer.priv_virt (granules buffer.size)
      (granules buffer.size) 0
      ((List.range 0).map (fun k => (⟨plat.vmalloc_to_page (stride_addr buffer.priv_virt k), PAGE_SIZE, 0⟩ : Scatterlist))
          ++ List.replicate (granules buffer.size) ⟨0, 0, 0⟩) (by omega) hex
    rw [hl] at hu
    refine ⟨⟨fun ⟨l, hl2⟩ => ?_, fun h => absurd h hall⟩, ?_, fun _ => hu⟩
    · rw [hu] at hl2
      exact absurd hl2 (by simp)
    · intro l hl2
      rw [hu] at hl2
      exact absurd hl2 (by simp)

/-- Witness for C8: a 3-page buffer yields 3 descriptors of `PAGE_SIZE` each, in
ascending virtual order. -/
theorem map_dma_paged_descriptors_witness :
    ion_system_heap_map_dma demo_platform (demo_buffer 12288) =
      SgResult.table [⟨851968, 4096, 0⟩, ⟨851969, 4096, 0⟩, ⟨851970, 4096, 0⟩] ∧
    [(⟨851968, 4096, 0⟩ : Scatterlist), ⟨851969, 4096, 0⟩, ⟨851970, 4096, 0⟩].length =
      granules (demo_buffer 12288).size ∧
    sg_total_length [⟨851968, 4096, 0⟩, ⟨851969, 4096, 0⟩, ⟨851970, 4096, 0⟩] =
      PAGE_ALIGN (demo_buffer 12288).size :=
  have h := (map_dma_paged_descriptors demo_platform (demo_buffer 12288) (by decide) (by decide)
    (by decide) (by decide)).2.1 [⟨851968, 4096, 0⟩, ⟨851969, 4096, 0⟩, ⟨851970, 4096, 0⟩]
    (by decide)
  ⟨by decide, h.2.1, h.2.2⟩

/-- Claim C9 (amended).  When the descriptor storage can be allocated,
`ion_system_contig_heap_map_dma` returns a table of exactly one descriptor, at
the page of the block base with offset `0`, whose length, and so the total
length of the list, is the buffer size itself, not rounded up to a page. -/
theorem map_dma_contig_descriptor (plat : Platform) (buffer : Buffer)
    (hstore : vmalloc plat plat.sizeof_scatterlist ≠ 0) :
    ion_system_contig_heap_map_dma plat buffer =
      SgResult.table [⟨plat.virt_to_page buffer.priv_virt, buffer.size, 0⟩] ∧
    sg_total_length [⟨plat.virt_to_page buffer.priv_virt, buffer.size, 0⟩] = buffer.size := by
  constructor
  · simp [ion_system_contig_heap_map_dma, hstore, sg_set_page, sg_init_table]
  · simp [sg_total_length]

/-- Witness for C9: a contiguous buffer of 100 bytes. -/
theorem map_dma_contig_descriptor_witness :
    vmalloc demo_platform demo_platform.sizeof_scatterlist ≠ 0 ∧
    ion_system_contig_heap_map_dma demo_platform (demo_buffer 100) =
      SgResult.table [⟨65536, 100, 0⟩] ∧
    sg_total_length [⟨65536, 100, 0⟩] = 100 :=
  ⟨by decide, map_dma_contig_descriptor demo_platform (demo_buffer 100) (by decide)⟩

/-- Counterexample for C9 as stated.  First, a buffer of 100 bytes: the single
descriptor has length 100 while the page-aligned size is 4096.  Second, when
`vmalloc` fails the result is `ERR_PTR(-ENOMEM)` and no descriptor. -/
theorem map_dma_contig_counterexample :
    (ion_system_contig_heap_map_dma demo_platform (demo_buffer 100) =
        SgResult.table [⟨65536, 100, 0⟩] ∧
      sg_total_length [⟨65536, 100, 0⟩] = 100 ∧
      PAGE_ALIGN (demo_buffer 100).size = 4096) ∧
    ion_system_contig_heap_map_dma { demo_platform with vmalloc_addr := fun _ => 0 }
      (demo_buffer 4096) = SgResult.err_ptr (-ENOMEM) := by
  decide

/-- Claim C10.  For either heap, `cache_op` called with a command that is none
of the three recognized codes returns `-EINVAL` and makes no cache-primitive
call, whatever the fuel. -/
theorem cache_op_unknown_command (heap : HeapType) (plat : Platform) (fuel : Nat)
    (buffer : Buffer) (vaddr offset length cmd : Nat)
    (h1 : cmd ≠ plat.ION_IOC_CLEAN_CACHES) (h2 : cmd ≠ plat.ION_IOC_INV_CACHES)
    (h3 : cmd ≠ plat.ION_IOC_CLEAN_INV_CACHES) :
    (heap_ops heap).cache_op plat fuel buffer vaddr offset length cmd = some (-EINVAL, []) := by
  cases heap
  · simp [heap_ops, vmalloc_ops, ion_system_heap_cache_ops, h1, h2, h3]
  · simp only [heap_ops, kmalloc_ops, ion_system_contig_heap_cache_ops, h1, h2, h3, if_false]
    split <;> rfl

/-- Witness for C10: command code `7` on both heaps of the demo platform. -/
theorem cache_op_unknown_command_witness :
    (heap_ops HeapType.ION_HEAP_TYPE_SYSTEM).cache_op demo_platform 0 (demo_buffer 8192)
      3489660928 0 8192 7 = some (-EINVAL, []) ∧
    (heap_ops HeapType.ION_HEAP_TYPE_SYSTEM_CONTIG).cache_op demo_platform 0 (demo_buffer 8192)
      3489660928 0 8192 7 = some (-EINVAL, []) :=
  ⟨cache_op_unknown_command _ _ _ _ _ _ _ _ (by decide) (by decide) (by decide),
   cache_op_unknown_command _ _ _ _ _ _ _ _ (by decide) (by decide) (by decide)⟩

/-! ## The stale-domain path, the cache walk and the calls of a mapping -/

theorem map_active_stale_domain (plat : Platform) (phys_of : Nat → Nat) (p0 : Nat) (w : World)
    (buffer : Buffer) (data : IommuMap) (dn pn align len flags : Nat)
    (ha : (msm_allocate_iova_address plat w dn pn len align).1 ≠ 0)
    (hd : plat.msm_get_iommu_domain dn = none) :
    map_active plat phys_of p0 w buffer data dn pn align len flags =
      (-ENOMEM,
        { table := w.table
          pool := w.pool
          trace := w.trace ++ [Call.allocate_iova dn pn len align,
            Call.free_iova (plat.pick_iova w.pool dn pn len align) dn pn len] },
        { data with mapped_size := len, iova_addr := plat.pick_iova w.pool dn pn len align }) := by
  obtain ⟨h1, _, h3⟩ := allocate_ne_zero plat w dn pn len align ha
  unfold map_active
  simp only [h3, h1, if_false, hd, msm_free_iova_address]
  simp

theorem demo_command_code_injective (plat : Platform)
    (h : plat.ION_IOC_CLEAN_CACHES = 0 ∧ plat.ION_IOC_INV_CACHES = 1 ∧
      plat.ION_IOC_CLEAN_INV_CACHES = 2) :
    Function.Injective (command_code plat) := by
  obtain ⟨h1, h2, h3⟩ := h
  intro a b hab
  cases a <;> cases b <;> simp_all [command_code]

theorem command_codes_distinct (plat : Platform) (hinj : Function.Injective (command_code plat)) :
    plat.ION_IOC_INV_CACHES ≠ plat.ION_IOC_CLEAN_CACHES ∧
    plat.ION_IOC_CLEAN_INV_CACHES ≠ plat.ION_IOC_CLEAN_CACHES ∧
    plat.ION_IOC_CLEAN_INV_CACHES ≠ plat.ION_IOC_INV_CACHES :=
  ⟨fun h => absurd (@hinj CacheOp.invalidate_caches CacheOp.clean_caches h) (by decide),
   fun h => absurd (@hinj CacheOp.clean_and_invalidate_caches CacheOp.clean_caches h) (by decide),
   fun h => absurd (@hinj CacheOp.clean_and_invalidate_caches CacheOp.invalidate_caches h)
     (by decide)⟩

theorem cache_ops_selected (plat : Platform) (fuel : Nat) (buffer : Buffer)
    (vaddr offset length : Nat) (op : CacheOp)
    (hinj : Function.Injective (command_code plat)) :
    ion_system_heap_cache_ops plat fuel buffer vaddr offset length (command_code plat op) =
      cache_walk plat op length fuel (stride_addr (buffer.priv_virt + offset) 0) vaddr 0 [] := by
  obtain ⟨h12, h13, h23⟩ := command_codes_distinct plat hinj
  have e : (buffer.priv_virt + offset) % 4294967296 = stride_addr (buffer.priv_virt + offset) 0 := by
    unfold stride_addr; omega
  cases op <;> simp [ion_system_heap_cache_ops, command_code, h12, h13, h23, e]

theorem cache_walk_prefix (plat : Platform) (op : CacheOp) (length vt vs : Nat)
    (stop : Nat) (hstop : stop * 4096 ≤ length + 4095) (hsl : stop * 4096 < 4294967296)
    (hok : ∀ k, k < stop →
      plat.page_to_phys (plat.vmalloc_to_page (stride_addr vt k)) % 4294967296 ≠ 0) (m : Nat) :
    ∀ (j fuel : Nat), j + m = stop →
      cache_walk plat op length (fuel + m) (stride_addr vt j) (stride_addr vs j)
          (j * 4096)
          ((List.range j).map (fun k => (⟨op, stride_addr vs k, PAGE_SIZE,
            plat.page_to_phys (plat.vmalloc_to_page (stride_addr vt k)) % 4294967296⟩ : CacheCall)))
        = cache_walk plat op length fuel (stride_addr vt stop) (stride_addr vs stop)
          (stop * 4096)
          ((List.range stop).map (fun k => (⟨op, stride_addr vs k, PAGE_SIZE,
            plat.page_to_phys (plat.vmalloc_to_page (stride_addr vt k)) % 4294967296⟩ : CacheCall))) := by
  induction m with
  | zero =>
    intro j fuel hj
    have : j = stop := by omega
    subst this
    rfl
  | succ n ih =>
    intro j fuel hj
    have hjs : j < stop := by omega
    have hlt : j * 4096 < length := by omega
    have e : fuel + (n + 1) = (fuel + n) + 1 := by omega
    rw [e]
    conv_lhs => unfold cache_walk
    rw [if_pos hlt]
    have hp := hok j hjs
    simp only [hp, if_false]
    have e1 : ∀ x, (stride_addr x j + PAGE_SIZE) % 4294967296 = stride_addr x (j + 1) := by
      intro x; unfold stride_addr PAGE_SIZE; omega
    have e2 : (j * 4096 + PAGE_SIZE) % 4294967296 = (j + 1) * 4096 := by
      unfold PAGE_SIZE; omega
    rw [e1, e1, e2]
    have e3 : (List.range j).map (fun k => (⟨op, stride_addr vs k, PAGE_SIZE,
            plat.page_to_phys (plat.vmalloc_to_page (stride_addr vt k)) % 4294967296⟩ : CacheCall))
        ++ [⟨op, stride_addr vs j, PAGE_SIZE,
            plat.page_to_phys (plat.vmalloc_to_page (stride_addr vt j)) % 4294967296⟩]
        = (List.range (j + 1)).map (fun k => (⟨op, stride_addr vs k, PAGE_SIZE,
            plat.page_to_phys (plat.vmalloc_to_page (stride_addr vt k)) % 4294967296⟩ : CacheCall)) := by
      simp [List.range_succ]
    rw [e3]
    exact ih (j + 1) fuel (by omega)

theorem stride_addr_stride (a k : Nat) :
    stride_addr (stride_addr a 0) k = stride_addr a k := by
  unfold stride_addr; omega

/-- The whole walk when every stride translates and the counter cannot wrap. -/
theorem cache_ops_walk_ok (plat : Platform) (fuel : Nat) (buffer : Buffer)
    (vaddr offset length : Nat) (op : CacheOp)
    (hinj : Function.Injective (command_code plat))
    (hv : vaddr < 4294967296) (hlen : length ≤ 4294963200)
    (hok : ∀ k, k < granules length → stride_phys plat buffer offset k ≠ 0)
    (hfuel : granules length < fuel) :
    ion_system_heap_cache_ops plat fuel buffer vaddr offset length (command_code plat op) =
      some (0, (List.range (granules length)).map
        (fun k => (⟨op, stride_addr vaddr k, PAGE_SIZE, stride_phys plat buffer offset k⟩ :
          CacheCall))) := by
  rw [cache_ops_selected plat fuel buffer vaddr offset length op hinj]
  obtain ⟨f, hf⟩ : ∃ f, fuel = (f + 1) + granules length := ⟨fuel - granules length - 1, by omega⟩
  have hv0 : vaddr = stride_addr vaddr 0 := by unfold stride_addr; omega
  have h := cache_walk_prefix plat op length (stride_addr (buffer.priv_virt + offset) 0) vaddr
    (granules length) (by unfold granules; omega) (by unfold granules; omega)
    (fun k hk => by rw [stride_addr_stride]; exact hok k hk) (granules length) 0 (f + 1)
    (by omega)
  simp only [stride_addr_stride, List.range_zero, List.map_nil, Nat.zero_mul] at h
  rw [hf]
  rw [← hv0] at h
  rw [h]
  unfold cache_walk
  have hge : ¬ granules length * 4096 < length := by unfold granules; omega
  rw [if_neg hge]
  rfl

/-- The walk that stops at the first stride whose physical address is zero. -/
theorem cache_ops_walk_einval (plat : Platform) (fuel : Nat) (buffer : Buffer)
    (vaddr offset length : Nat) (op : CacheOp) (k0 : Nat)
    (hinj : Function.Injective (command_code plat))
    (hv : vaddr < 4294967296) (hlen : length < 4294967296) (hk0 : k0 * 4096 < length)
    (hok : ∀ k, k < k0 → stride_phys plat buffer offset k ≠ 0)
    (hzero : stride_phys plat buffer offset k0 = 0)
    (hfuel : k0 < fuel) :
    ion_system_heap_cache_ops plat fuel buffer vaddr offset length (command_code plat op) =
      some (-EINVAL, (List.range k0).map
        (fun k => (⟨op, stride_addr vaddr k, PAGE_SIZE, stride_phys plat buffer offset k⟩ :
          CacheCall))) := by
  rw [cache_ops_selected plat fuel buffer vaddr offset length op hinj]
  obtain ⟨f, hf⟩ : ∃ f, fuel = (f + 1) + k0 := ⟨fuel - k0 - 1, by omega⟩
  have hv0 : vaddr = stride_addr vaddr 0 := by unfold stride_addr; omega
  have h := cache_walk_prefix plat op length (stride_addr (buffer.priv_virt + offset) 0) vaddr
    k0 (by omega) (by omega)
    (fun k hk => by rw [stride_addr_stride]; exact hok k hk) k0 0 (f + 1)
    (by omega)
  simp only [stride_addr_stride, List.range_zero, List.map_nil, Nat.zero_mul] at h
  rw [hf]
  rw [← hv0] at h
  rw [h]
  unfold cache_walk
  rw [if_pos hk0]
  have hz : plat.page_to_phys (plat.vmalloc_to_page (stride_addr (buffer.priv_virt + offset) k0))
      % 4294967296 = 0 := hzero
  simp only [hz, if_true]
  rfl

/-- The walk never ends when the length is within a page of `2^32` and every
address translates to a value that is non-zero in 32 bits: the counter `ln`
wraps to `0` before it reaches `length`. -/
theorem cache_walk_diverges (plat : Platform) (op : CacheOp) (length : Nat)
    (hlen : 4294963200 < length)
    (hall : ∀ v, plat.page_to_phys (plat.vmalloc_to_page v) % 4294967296 ≠ 0) (fuel : Nat) :
    ∀ (vt vs ln : Nat) (calls : List CacheCall), ln % 4096 = 0 → ln < 4294967296 →
      cache_walk plat op length fuel vt vs ln calls = none := by
  induction fuel with
  | zero => intro vt vs ln calls _ _; rfl
  | succ n ih =>
    intro vt vs ln calls h1 h2
    unfold cache_walk
    have hlt : ln < length := by omega
    rw [if_pos hlt]
    simp only [hall vt, if_false]
    apply ih
    · unfold PAGE_SIZE; omega
    · omega

theorem mapped_granules_append (s t : List Call) :
    mapped_granules (s ++ t) = mapped_granules s ++ mapped_granules t := by
  simp [mapped_granules, List.filterMap_append]

theorem padding_regions_append (s t : List Call) :
    padding_regions (s ++ t) = padding_regions s ++ padding_regions t := by
  simp [padding_regions, List.filterMap_append]

theorem calls_since_append (w w2 : World) (t : List Call) (h : w2.trace = w.trace ++ t) :
    calls_since w w2 = t := by
  simp [calls_since, h]

theorem map_walk_calls (plat : Platform) (phys_of : Nat → Nat) (domain cached : Nat)
    (fuel : Nat) :
    ∀ (i : Int) (a p : Nat) (ret : Int) (w : World), i ≤ (fuel : Int) → a < 4294967296 →
      (map_walk plat phys_of domain cached fuel i a p ret w).failed = false →
      (map_walk plat phys_of domain cached fuel i a p ret w).temp_iova
        = stride_addr a (granules i.toNat) ∧
      ∃ u, (map_walk plat phys_of domain cached fuel i a p ret w).w.trace = w.trace ++ u ∧
        mapped_granules u = (List.range (granules i.toNat)).map (stride_addr a) ∧
        padding_regions u = [] := by
  induction fuel with
  | zero =>
    intro i a p ret w hf ha _
    have : i.toNat = 0 := by omega
    refine ⟨?_, [], ?_, ?_, rfl⟩
    · simp [map_walk, this, granules, stride_addr]; omega
    · simp [map_walk]
    · simp [this, granules, mapped_granules]
  | succ n ih =>
    intro i a p ret w hf ha hnf
    unfold map_walk at hnf ⊢
    by_cases hi : 0 < i
    · rw [if_pos hi] at hnf ⊢
      by_cases h0 : plat.iommu_map_ret domain a (phys_of p) = 0
      · simp only [iommu_map, h0, if_true, ne_eq, not_true_eq_false, if_false] at hnf ⊢
        have e : ∀ k, stride_addr ((a + SZ_4K) % 4294967296) k = stride_addr a (k + 1) := by
          intro k
          unfold stride_addr SZ_4K
          omega
        have ea : stride_addr a 0 = a := by unfold stride_addr; omega
        have hg : granules i.toNat = granules (i - 4096).toNat + 1 := by
          unfold granules
          omega
        obtain ⟨t1, u, t2, t3, t4⟩ := ih (i - 4096) ((a + SZ_4K) % 4294967296)
          ((p + SZ_4K) % 4294967296) 0 _ (by omega) (Nat.mod_lt _ (by norm_num)) hnf
        refine ⟨?_, Call.iommu_map domain a (phys_of p) ORDER_4K cached :: u, ?_, ?_, ?_⟩
        · rw [t1, e, hg]
        · rw [t2]; simp
        · rw [hg, List.range_succ_eq_map, List.map_cons, List.map_map]
          have : mapped_granules (Call.iommu_map domain a (phys_of p) ORDER_4K cached :: u)
              = a :: mapped_granules u := by
            simp [mapped_granules]
          rw [this, t3, ea]
          simp [e, Function.comp_def]
        · have : padding_regions (Call.iommu_map domain a (phys_of p) ORDER_4K cached :: u)
              = padding_regions u := by
            simp [padding_regions]
          rw [this, t4]
      · exfalso
        simp [iommu_map, h0] at hnf
    · rw [if_neg hi]
      have : i.toNat = 0 := by omega
      refine ⟨?_, [], ?_, ?_, rfl⟩
      · simp [this, granules, stride_addr]; omega
      · simp
      · simp [this, granules, mapped_granules]

theorem unwind_calls (domain size : Nat) (fuel : Nat) :
    ∀ (i : Int) (a : Nat) (w : World),
      ∃ u, (unwind domain size fuel i a w).trace = w.trace ++ u ∧
        mapped_granules u = [] ∧ padding_regions u = [] := by
  induction fuel with
  | zero => intro i a w; exact ⟨[], by simp [unwind], rfl, rfl⟩
  | succ n ih =>
    intro i a w
    unfold unwind
    split
    · obtain ⟨u, h1, h2, h3⟩ := ih (to_int (to_ulong (i + 4096)))
        ((a + 4294967296 - SZ_4K) % 4294967296) (iommu_unmap w domain a ORDER_4K)
      refine ⟨Call.iommu_unmap domain a ORDER_4K :: u, ?_, ?_, ?_⟩
      · rw [h1]; simp [iommu_unmap]
      · have : mapped_granules (Call.iommu_unmap domain a ORDER_4K :: u) = mapped_granules u := by
          simp [mapped_granules]
        rw [this, h2]
      · have : padding_regions (Call.iommu_unmap domain a ORDER_4K :: u) = padding_regions u := by
          simp [padding_regions]
        rw [this, h3]
    · exact ⟨[], by simp, rfl, rfl⟩

theorem map_active_zero_calls (plat : Platform) (phys_of : Nat → Nat) (p0 : Nat) (w : World)
    (buffer : Buffer) (data : IommuMap) (dn pn align len flags : Nat)
    (hB32 : plat.pick_iova w.pool dn pn len align < 4294967296)
    (hz : (map_active plat phys_of p0 w buffer data dn pn align len flags).1 = 0) :
    ∃ t, (map_active plat phys_of p0 w buffer data dn pn align len flags).2.1.trace
        = w.trace ++ t ∧
      mapped_granules t = (List.range (granules (to_int buffer.size).toNat)).map
        (stride_addr (plat.pick_iova w.pool dn pn len align)) ∧
      padding_regions t =
        (if to_ulong ((len : Int) - (buffer.size : Int)) ≠ 0 then
          [(stride_addr (plat.pick_iova w.pool dn pn len align)
              (granules (to_int buffer.size).toNat),
            to_ulong ((len : Int) - (buffer.size : Int)))]
        else []) := by
  obtain ⟨h1, _, ⟨domain, hd⟩, _, _⟩ :=
    map_active_zero plat phys_of p0 w buffer data dn pn align len flags hz
  have ha : (msm_allocate_iova_address plat w dn pn len align).1 ≠ 0 := by
    intro hc
    unfold map_active at hz
    simp only [hc, if_true] at hz
    simp [ENOMEM] at hz
  rw [map_active_unfold plat phys_of p0 w buffer data dn pn align len flags domain ha hd] at hz ⊢
  have hr := map_walk_failed_ret plat phys_of domain
    (if plat.ION_IS_CACHED flags = true then 1 else 0)
    (to_int buffer.size).toNat (to_int buffer.size)
    (plat.pick_iova w.pool dn pn len align) p0 plat.ret_uninit
    { table := w.table
      pool := ⟨dn, pn, plat.pick_iova w.pool dn pn len align, len⟩ :: w.pool
      trace := w.trace ++ [Call.allocate_iova dn pn len align] }
  have hc := map_walk_calls plat phys_of domain
    (if plat.ION_IS_CACHED flags = true then 1 else 0)
    (to_int buffer.size).toNat (to_int buffer.size)
    (plat.pick_iova w.pool dn pn len align) p0 plat.ret_uninit
    { table := w.table
      pool := ⟨dn, pn, plat.pick_iova w.pool dn pn len align, len⟩ :: w.pool
      trace := w.trace ++ [Call.allocate_iova dn pn len align] } (by omega) hB32
  generalize map_walk plat phys_of domain
    (if plat.ION_IS_CACHED flags = true then 1 else 0)
    (to_int buffer.size).toNat (to_int buffer.size)
    (plat.pick_iova w.pool dn pn len align) p0 plat.ret_uninit
    { table := w.table
      pool := ⟨dn, pn, plat.pick_iova w.pool dn pn len align, len⟩ :: w.pool
      trace := w.trace ++ [Call.allocate_iova dn pn len align] } = r at hz hr hc ⊢
  simp only at hz hc ⊢
  cases hf : r.failed with
  | true =>
    exfalso
    simp only [hf, if_true] at hz
    exact hr hf hz
  | false =>
    obtain ⟨c1, u, c2, c3, c4⟩ := hc hf
    simp only [Bool.false_eq_true, if_false]
    have ha1 : mapped_granules [Call.allocate_iova dn pn len align] = [] := rfl
    have ha2 : padding_regions [Call.allocate_iova dn pn len align] = [] := rfl
    by_cases hx : to_ulong ((len : Int) - (buffer.size : Int)) = 0
    · simp only [hx, ne_eq, not_true_eq_false, if_false]
      refine ⟨[Call.allocate_iova dn pn len align] ++ u, ?_, ?_, ?_⟩
      · rw [c2]; simp
      · rw [mapped_granules_append, ha1, c3]; rfl
      · rw [padding_regions_append, ha2, c4]; rfl
    · simp only [hx, ne_eq, not_false_eq_true, if_true]
      have he1 : mapped_granules [Call.map_extra domain r.temp_iova
          (to_ulong ((len : Int) - (buffer.size : Int))) flags] = [] := rfl
      have he2 : padding_regions [Call.map_extra domain r.temp_iova
          (to_ulong ((len : Int) - (buffer.size : Int))) flags]
          = [(r.temp_iova, to_ulong ((len : Int) - (buffer.size : Int)))] := rfl
      by_cases he : plat.map_extra_ret domain r.temp_iova
          (to_ulong ((len : Int) - (buffer.size : Int))) flags < 0
      · simp only [he, if_true]
        obtain ⟨v, v1, v2, v3⟩ := unwind_calls domain buffer.size (buffer.size / SZ_4K + 1) r.i
          r.temp_iova (msm_iommu_map_extra plat r.w domain r.temp_iova
            (to_ulong ((len : Int) - (buffer.size : Int))) flags).2
        refine ⟨[Call.allocate_iova dn pn len align] ++ u
          ++ [Call.map_extra domain r.temp_iova
              (to_ulong ((len : Int) - (buffer.size : Int))) flags]
          ++ v ++ [Call.free_iova (plat.pick_iova w.pool dn pn len align) dn pn len], ?_, ?_, ?_⟩
        · simp only [msm_free_iova_address]
          rw [v1]
          simp [msm_iommu_map_extra, c2]
        · simp only [mapped_granules_append, ha1, c3, he1, v2]
          simp [mapped_granules]
        · simp only [padding_regions_append, ha2, c4, he2, v3, c1]
          simp [padding_regions]
      · simp only [he, if_false]
        refine ⟨[Call.allocate_iova dn pn len align] ++ u
          ++ [Call.map_extra domain r.temp_iova
              (to_ulong ((len : Int) - (buffer.size : Int))) flags], ?_, ?_, ?_⟩
        · simp [msm_iommu_map_extra, c2]
        · simp only [mapped_granules_append, ha1, c3, he1]
          simp
        · simp only [padding_regions_append, ha2, c4, he2, c1]
          simp [padding_regions]

theorem map_success_regions (heap : HeapType) (plat : Platform) (w : World) (buffer : Buffer)
    (data : IommuMap) (dn pn align len flags n : Nat)
    (hu : plat.msm_use_iommu = true)
    (hsize : buffer.size = n * 4096) (hpos : 0 < buffer.size) (hlen : buffer.size ≤ len)
    (hmax : buffer.size ≤ 2147483647)
    (hfit : ((heap_ops heap).map_iommu plat w buffer data dn pn align len flags).2.2.iova_addr
      + len ≤ 4294967296)
    (hz : ((heap_ops heap).map_iommu plat w buffer data dn pn align len flags).1 = 0) :
    mapped_granules (calls_since w
        ((heap_ops heap).map_iommu plat w buffer data dn pn align len flags).2.1) =
      (List.range n).map (fun k =>
        ((heap_ops heap).map_iommu plat w buffer data dn pn align len flags).2.2.iova_addr
          + k * 4096) ∧
    padding_regions (calls_since w
        ((heap_ops heap).map_iommu plat w buffer data dn pn align len flags).2.1) =
      (if buffer.size < len then
        [(((heap_ops heap).map_iommu plat w buffer data dn pn align len flags).2.2.iova_addr
            + buffer.size, len - buffer.size)]
      else []) ∧
    ((heap_ops heap).map_iommu plat w buffer data dn pn align len flags).2.2.mapped_size = len := by
  have hc : plat.ION_IS_CACHED flags = true := by
    by_contra hc
    have hc2 : plat.ION_IS_CACHED flags = false := by simpa using hc
    cases heap <;>
      simp [heap_ops, vmalloc_ops, kmalloc_ops, ion_system_heap_map_iommu,
        ion_system_contig_heap_map_iommu, hc2, EINVAL] at hz
  obtain ⟨phys_of, p0, he, _, _⟩ := heap_map_iommu_active heap plat w buffer data dn pn align len
    flags hc hu
  rw [he] at hz hfit ⊢
  obtain ⟨_, _, _, h4, _⟩ :=
    map_active_zero plat phys_of p0 w buffer data dn pn align len flags hz
  rw [h4] at hfit ⊢
  simp only at hfit ⊢
  obtain ⟨t, t1, t2, t3⟩ := map_active_zero_calls plat phys_of p0 w buffer data dn pn align len
    flags (by omega) hz
  rw [calls_since_append w _ t t1, t2, t3]
  have hi : to_int buffer.size = (buffer.size : Int) := to_int_of_lt _ (by omega)
  have hg : granules buffer.size = n := by unfold granules; omega
  have hx : to_ulong ((len : Int) - (buffer.size : Int)) = len - buffer.size := by
    unfold to_ulong
    omega
  rw [hi, Int.toNat_ofNat, hg, hx]
  refine ⟨?_, ?_, trivial⟩
  · apply List.map_congr_left
    intro k hk
    rw [List.mem_range] at hk
    unfold stride_addr
    omega
  · by_cases hlt : buffer.size < len
    · have : len - buffer.size ≠ 0 := by omega
      simp only [this, ne_eq, not_false_eq_true, if_true, hlt]
      congr 2
      unfold stride_addr
      omega
    · have : len - buffer.size = 0 := by omega
      simp [this, hlt]

/-! ## The claims on cache maintenance, allocation and the reserved range -/

/-- Claim C11 (amended).  For the paged heap, a recognized command (the three
command codes being distinct, as the labels of a `switch` are), a caller address
`vaddr`, an offset and a length of at most `2^32 - 4096` such that every visited
stride translates to a physical address that is non-zero in the 32-bit `pstart`
(`stride_phys`, the translation modulo `2^32`): with enough fuel (more than
`ceil(length / PAGE_SIZE)`) the call ends, returns `0`, and calls exactly the
primitive selected by the command `ceil(length / PAGE_SIZE)` times, the `k`-th call
being `(vaddr + k * PAGE_SIZE, PAGE_SIZE, 32-bit physical address of the page
behind priv_virt + offset + k * PAGE_SIZE)`; a length of `0` makes no call. -/
theorem paged_cache_op_walk (plat : Platform) (fuel : Nat) (buffer : Buffer)
    (vaddr offset length : Nat) (op : CacheOp)
    (hinj : Function.Injective (command_code plat))
    (hv : vaddr < 4294967296) (hlen : length ≤ 4294963200)
    (hok : ∀ k, k < granules length → stride_phys plat buffer offset k ≠ 0)
    (hfuel : granules length < fuel) :
    ion_system_heap_cache_ops plat fuel buffer vaddr offset length (command_code plat op) =
      some (0, (List.range (granules length)).map
        (fun k => (⟨op, stride_addr vaddr k, PAGE_SIZE, stride_phys plat buffer offset k⟩ :
          CacheCall))) ∧
    (length = 0 →
      ion_system_heap_cache_ops plat fuel buffer vaddr offset length (command_code plat op) =
        some (0, [])) := by
  have h := cache_ops_walk_ok plat fuel buffer vaddr offset length op hinj hv hlen hok hfuel
  refine ⟨h, ?_⟩
  intro h0
  rw [h]
  subst h0
  rfl

/-- Witness for C11: invalidate over a 3-page window of the demo buffer. -/
theorem paged_cache_op_walk_witness :
    ion_system_heap_cache_ops demo_platform 4 (demo_buffer 12288) 1073741824 0 12288
        (command_code demo_platform CacheOp.invalidate_caches) =
      some (0, (List.range (granules 12288)).map
        (fun k => (⟨CacheOp.invalidate_caches, stride_addr 1073741824 k, PAGE_SIZE,
          stride_phys demo_platform (demo_buffer 12288) 0 k⟩ : CacheCall))) ∧
    ((12288 : Nat) = 0 →
      ion_system_heap_cache_ops demo_platform 4 (demo_buffer 12288) 1073741824 0 12288
        (command_code demo_platform CacheOp.invalidate_caches) = some (0, [])) :=
  paged_cache_op_walk demo_platform 4 (demo_buffer 12288) 1073741824 0 12288
    CacheOp.invalidate_caches
    (demo_command_code_injective demo_platform ⟨rfl, rfl, rfl⟩) (by decide) (by decide)
    (by decide) (by decide)

/-- Counterexample for C11 as stated: a length of `2^32 - 1` on a platform where
every address translates to the physical address `4096`.  The counter `ln` goes
up in steps of 4096 and wraps to `0` after `2^32 - 4096`, which is still below the
length, so the loop never ends: no amount of fuel gives a result. -/
theorem paged_cache_op_walk_counterexample :
    (∀ v, demo_all_pages.page_to_phys (demo_all_pages.vmalloc_to_page v) % 4294967296 ≠ 0) ∧
    (∀ fuel, ion_system_heap_cache_ops demo_all_pages fuel (demo_buffer 12288) 1073741824 0
      4294967295 (command_code demo_all_pages CacheOp.clean_caches) = none) := by
  have hall : ∀ v,
      demo_all_pages.page_to_phys (demo_all_pages.vmalloc_to_page v) % 4294967296 ≠ 0 := by
    intro v
    show 4096 % 4294967296 ≠ 0
    decide
  refine ⟨hall, ?_⟩
  intro fuel
  rw [cache_ops_selected demo_all_pages fuel (demo_buffer 12288) 1073741824 0 4294967295
    CacheOp.clean_caches (demo_command_code_injective demo_all_pages ⟨rfl, rfl, rfl⟩)]
  exact cache_walk_diverges demo_all_pages CacheOp.clean_caches 4294967295 (by decide) hall fuel
    _ _ 0 [] (by decide) (by decide)

/-- Claim C12.  For either heap, with cached flags, an active IOMMU and a
successful reservation, when the domain number does not resolve the call
returns `-ENOMEM`, leaves the page tables untouched, and leaves the address pool
as before the call: the only calls it makes are the reservation and the release
of exactly the reserved base and length in the domain and partition passed in. -/
theorem map_iommu_stale_domain (heap : HeapType) (plat : Platform) (w : World)
    (buffer : Buffer) (data : IommuMap) (dn pn align len flags : Nat)
    (hc : plat.ION_IS_CACHED flags = true) (hu : plat.msm_use_iommu = true)
    (ha : (msm_allocate_iova_address plat w dn pn len align).1 ≠ 0)
    (hd : plat.msm_get_iommu_domain dn = none) :
    ((heap_ops heap).map_iommu plat w buffer data dn pn align len flags).1 = -ENOMEM ∧
    ((heap_ops heap).map_iommu plat w buffer data dn pn align len flags).2.1.table = w.table ∧
    ((heap_ops heap).map_iommu plat w buffer data dn pn align len flags).2.1.pool = w.pool ∧
    calls_since w ((heap_ops heap).map_iommu plat w buffer data dn pn align len flags).2.1 =
      [Call.allocate_iova dn pn len align,
       Call.free_iova (msm_allocate_iova_address plat w dn pn len align).1 dn pn len] := by
  obtain ⟨phys_of, p0, he, _, _⟩ := heap_map_iommu_active heap plat w buffer data dn pn align len
    flags hc hu
  obtain ⟨_, _, h3⟩ := allocate_ne_zero plat w dn pn len align ha
  rw [he, map_active_stale_domain plat phys_of p0 w buffer data dn pn align len flags ha hd, h3]
  refine ⟨rfl, rfl, rfl, ?_⟩
  simp [calls_since]

/-- Witness for C12: a map call for the unknown domain `9` on the demo
platform. -/
theorem map_iommu_stale_domain_witness :
    ((heap_ops HeapType.ION_HEAP_TYPE_SYSTEM).map_iommu demo_platform empty_world
      (demo_buffer 8192) (demo_record 9 0) 9 0 4096 8192 1).1 = -ENOMEM ∧
    ((heap_ops HeapType.ION_HEAP_TYPE_SYSTEM).map_iommu demo_platform empty_world
      (demo_buffer 8192) (demo_record 9 0) 9 0 4096 8192 1).2.1.table = empty_world.table ∧
    ((heap_ops HeapType.ION_HEAP_TYPE_SYSTEM).map_iommu demo_platform empty_world
      (demo_buffer 8192) (demo_record 9 0) 9 0 4096 8192 1).2.1.pool = empty_world.pool ∧
    calls_since empty_world ((heap_ops HeapType.ION_HEAP_TYPE_SYSTEM).map_iommu demo_platform
      empty_world (demo_buffer 8192) (demo_record 9 0) 9 0 4096 8192 1).2.1 =
      [Call.allocate_iova 9 0 8192 4096,
       Call.free_iova (msm_allocate_iova_address demo_platform empty_world 9 0 8192 4096).1
         9 0 8192] :=
  map_iommu_stale_domain HeapType.ION_HEAP_TYPE_SYSTEM demo_platform empty_world
    (demo_buffer 8192) (demo_record 9 0) 9 0 4096 8192 1 (by decide) (by decide) (by decide)
    (by decide)

/-- Claim C13.  For the contiguous heap with cached flags and no active IOMMU,
`map_iommu` returns `0`, changes nothing in the world (no reservation, no
page-table entry, no call) and sets the device address of the record to
`virt_to_phys(buffer->vaddr)`, the physical base address of the buffer; an unmap
call on that record, still without IOMMU, changes nothing either. -/
theorem contig_map_iommu_without_iommu (plat : Platform) (w : World) (buffer : Buffer)
    (data : IommuMap) (dn pn align len flags : Nat)
    (hc : plat.ION_IS_CACHED flags = true) (hu : plat.msm_use_iommu = false) :
    ion_system_contig_heap_map_iommu plat w buffer data dn pn align len flags =
      (0, w, { data with iova_addr := plat.virt_to_phys buffer.vaddr }) ∧
    ion_system_heap_unmap_iommu plat
        (ion_system_contig_heap_map_iommu plat w buffer data dn pn align len flags).2.1
        (ion_system_contig_heap_map_iommu plat w buffer data dn pn align len flags).2.2 = w := by
  simp [ion_system_contig_heap_map_iommu, hc, hu, ion_system_heap_unmap_iommu]

/-- Witness for C13: the demo buffer on the demo platform without IOMMU. -/
theorem contig_map_iommu_without_iommu_witness :
    ion_system_contig_heap_map_iommu demo_no_iommu empty_world (demo_buffer 8192)
        (demo_record 1 0) 1 0 4096 8192 1 =
      (0, empty_world,
        { demo_record 1 0 with iova_addr := demo_no_iommu.virt_to_phys (demo_buffer 8192).vaddr }) ∧
    ion_system_heap_unmap_iommu demo_no_iommu
        (ion_system_contig_heap_map_iommu demo_no_iommu empty_world (demo_buffer 8192)
          (demo_record 1 0) 1 0 4096 8192 1).2.1
        (ion_system_contig_heap_map_iommu demo_no_iommu empty_world (demo_buffer 8192)
          (demo_record 1 0) 1 0 4096 8192 1).2.2 = empty_world :=
  contig_map_iommu_without_iommu demo_no_iommu empty_world (demo_buffer 8192) (demo_record 1 0)
    1 0 4096 8192 1 (by decide) (by decide)

/-- Claim C14 (amended).  For each heap, a successful `allocate` leaves the value
returned by `get_allocated` as it was, and so does `free` of that buffer: the
file never updates the counters.  Hence allocate followed by free leaves the
counter unchanged. -/
theorem allocate_free_counter (heap : HeapType) (ka : KernelAllocator) (s : HeapState)
    (buffer : Buffer) (size align flags : Nat)
    (hok : (heap_allocate heap ka s buffer size align flags).1 = 0) :
    heap_get_allocated heap (heap_allocate heap ka s buffer size align flags).2.1
      = heap_get_allocated heap s ∧
    heap_get_allocated heap
        (heap_free heap (heap_allocate heap ka s buffer size align flags).2.1
          (heap_allocate heap ka s buffer size align flags).2.2)
      = heap_get_allocated heap s := by
  cases heap
  · by_cases h : ka.vmalloc_user size = 0 <;>
      simp [heap_allocate, heap_get_allocated, heap_free, ion_system_heap_allocate,
        ion_system_heap_free, ion_system_heap_get_allocated, h]
  · by_cases h : ka.kzalloc size = 0 <;>
      simp [heap_allocate, heap_get_allocated, heap_free, ion_system_contig_heap_allocate,
        ion_system_contig_heap_free, ion_system_contig_heap_get_allocated, h]

/-- Witness for C14: allocating and freeing 4096 bytes on the paged heap. -/
theorem allocate_free_counter_witness :
    heap_get_allocated HeapType.ION_HEAP_TYPE_SYSTEM
        (heap_allocate HeapType.ION_HEAP_TYPE_SYSTEM demo_allocator empty_heap_state
          (demo_buffer 4096) 4096 4096 1).2.1
      = heap_get_allocated HeapType.ION_HEAP_TYPE_SYSTEM empty_heap_state ∧
    heap_get_allocated HeapType.ION_HEAP_TYPE_SYSTEM
        (heap_free HeapType.ION_HEAP_TYPE_SYSTEM
          (heap_allocate HeapType.ION_HEAP_TYPE_SYSTEM demo_allocator empty_heap_state
            (demo_buffer 4096) 4096 4096 1).2.1
          (heap_allocate HeapType.ION_HEAP_TYPE_SYSTEM demo_allocator empty_heap_state
            (demo_buffer 4096) 4096 4096 1).2.2)
      = heap_get_allocated HeapType.ION_HEAP_TYPE_SYSTEM empty_heap_state :=
  allocate_free_counter HeapType.ION_HEAP_TYPE_SYSTEM demo_allocator empty_heap_state
    (demo_buffer 4096) 4096 4096 1 (by decide)

/-- Counterexample for C14 as stated: on both heaps a successful allocation of
4096 bytes leaves the counter at `0`, not 4096 larger. -/
theorem allocate_free_counter_counterexample :
    (heap_allocate HeapType.ION_HEAP_TYPE_SYSTEM demo_allocator empty_heap_state
      (demo_buffer 4096) 4096 4096 1).1 = 0 ∧
    heap_get_allocated HeapType.ION_HEAP_TYPE_SYSTEM empty_heap_state = 0 ∧
    heap_get_allocated HeapType.ION_HEAP_TYPE_SYSTEM
      (heap_allocate HeapType.ION_HEAP_TYPE_SYSTEM demo_allocator empty_heap_state
        (demo_buffer 4096) 4096 4096 1).2.1 = 0 ∧
    (heap_allocate HeapType.ION_HEAP_TYPE_SYSTEM_CONTIG demo_allocator empty_heap_state
      (demo_buffer 4096) 4096 4096 1).1 = 0 ∧
    heap_get_allocated HeapType.ION_HEAP_TYPE_SYSTEM_CONTIG
      (heap_allocate HeapType.ION_HEAP_TYPE_SYSTEM_CONTIG demo_allocator empty_heap_state
        (demo_buffer 4096) 4096 4096 1).2.1 = 0 := by
  decide

/-- Claim C15.  For either heap, `map_kernel` returns the backing virtual address
`priv_virt` exactly when the flags request cached semantics, returns
`ERR_PTR(-EINVAL)` otherwise, and leaves the buffer as it was in both cases. -/
theorem map_kernel_cached_only (heap : HeapType) (plat : Platform) (buffer : Buffer)
    (flags : Nat) :
    ((heap_map_kernel heap plat buffer flags).1 = KernelPtr.ptr buffer.priv_virt ↔
      plat.ION_IS_CACHED flags = true) ∧
    (plat.ION_IS_CACHED flags = false →
      (heap_map_kernel heap plat buffer flags).1 = KernelPtr.err_ptr (-EINVAL)) ∧
    (heap_map_kernel heap plat buffer flags).2 = buffer := by
  cases heap <;> cases h : plat.ION_IS_CACHED flags <;>
    simp [heap_map_kernel, ion_system_heap_map_kernel, h]

/-- Witness for C15: uncached flags on the paged heap, cached flags on the
contiguous heap. -/
theorem map_kernel_cached_only_witness :
    (heap_map_kernel HeapType.ION_HEAP_TYPE_SYSTEM demo_platform (demo_buffer 8192) 0).1
      = KernelPtr.err_ptr (-EINVAL) ∧
    (heap_map_kernel HeapType.ION_HEAP_TYPE_SYSTEM_CONTIG demo_platform (demo_buffer 8192) 1).1
      = KernelPtr.ptr 3489660928 :=
  ⟨(map_kernel_cached_only HeapType.ION_HEAP_TYPE_SYSTEM demo_platform (demo_buffer 8192)
      0).2.1 (by decide),
   (map_kernel_cached_only HeapType.ION_HEAP_TYPE_SYSTEM_CONTIG demo_platform (demo_buffer 8192)
      1).1.2 (by decide)⟩

/-- Claim C16 (amended).  For the paged heap, `cache_op` returns `-EINVAL` without
any cache-primitive call when the command is not recognized; and when, for a
recognized command, stride `k0` is the first whose physical address is zero in
the 32-bit `pstart` (`stride_phys`, the translation modulo `2^32`), it returns
`-EINVAL` after exactly the `k0` calls of the strides before it, so without any
call only when `k0 = 0`. -/
theorem paged_cache_op_einval_calls (plat : Platform) (fuel : Nat) (buffer : Buffer)
    (vaddr offset length : Nat) :
    (∀ cmd, cmd ≠ plat.ION_IOC_CLEAN_CACHES → cmd ≠ plat.ION_IOC_INV_CACHES →
      cmd ≠ plat.ION_IOC_CLEAN_INV_CACHES →
      ion_system_heap_cache_ops plat fuel buffer vaddr offset length cmd = some (-EINVAL, [])) ∧
    (∀ (op : CacheOp) (k0 : Nat), Function.Injective (command_code plat) →
      vaddr < 4294967296 → length < 4294967296 → k0 * 4096 < length →
      (∀ k, k < k0 → stride_phys plat buffer offset k ≠ 0) →
      stride_phys plat buffer offset k0 = 0 → k0 < fuel →
      ion_system_heap_cache_ops plat fuel buffer vaddr offset length (command_code plat op) =
        some (-EINVAL, (List.range k0).map
          (fun k => (⟨op, stride_addr vaddr k, PAGE_SIZE, stride_phys plat buffer offset k⟩ :
            CacheCall)))) := by
  constructor
  · intro cmd h1 h2 h3
    simp [ion_system_heap_cache_ops, h1, h2, h3]
  · intro op k0 hinj hv hlen hk0 hok hzero hfuel
    exact cache_ops_walk_einval plat fuel buffer vaddr offset length op k0 hinj hv hlen hk0 hok
      hzero hfuel

/-- Witness for C16: an unknown command, and a 3-page window whose second page
does not resolve. -/
theorem paged_cache_op_einval_calls_witness :
    ion_system_heap_cache_ops (demo_page_missing_at 3489665024) 4 (demo_buffer 12288)
        1073741824 0 12288 7 = some (-EINVAL, []) ∧
    ion_system_heap_cache_ops (demo_page_missing_at 3489665024) 4 (demo_buffer 12288)
        1073741824 0 12288
        (command_code (demo_page_missing_at 3489665024) CacheOp.clean_caches) =
      some (-EINVAL, (List.range 1).map
        (fun k => (⟨CacheOp.clean_caches, stride_addr 1073741824 k, PAGE_SIZE,
          stride_phys (demo_page_missing_at 3489665024) (demo_buffer 12288) 0 k⟩ :
            CacheCall))) :=
  ⟨(paged_cache_op_einval_calls (demo_page_missing_at 3489665024) 4 (demo_buffer 12288)
      1073741824 0 12288).1 7 (by decide) (by decide) (by decide),
   (paged_cache_op_einval_calls (demo_page_missing_at 3489665024) 4 (demo_buffer 12288)
      1073741824 0 12288).2 CacheOp.clean_caches 1
      (demo_command_code_injective (demo_page_missing_at 3489665024) ⟨rfl, rfl, rfl⟩)
      (by decide) (by decide) (by decide) (by decide) (by decide) (by decide)⟩

/-- Counterexample for C16 as stated: the second page of a 3-page window does
not resolve; the call returns `-EINVAL` after the primitive has been called for
the first page. -/
theorem paged_cache_op_einval_calls_counterexample :
    ion_system_heap_cache_ops (demo_page_missing_at 3489665024) 4 (demo_buffer 12288)
        1073741824 0 12288 (demo_page_missing_at 3489665024).ION_IOC_CLEAN_CACHES =
      some (-EINVAL, [⟨CacheOp.clean_caches, 1073741824, 4096, 3489660928⟩]) := by
  decide

/-- Claim C17 (amended).  For the contiguous heap, a recognized command (the
three codes being distinct) and a non-zero physical base plus offset,
`cache_op` returns `0` after exactly one primitive call, with the caller
address, the whole length and the physical address
`virt_to_phys(priv_virt) + offset`: there is no walk in page-sized strides. -/
theorem contig_cache_op_single_call (plat : Platform) (buffer : Buffer)
    (vaddr offset length cmd : Nat) (op : CacheOp)
    (hinj : Function.Injective (command_code plat)) (hcmd : cmd = command_code plat op)
    (hphys : (plat.virt_to_phys buffer.priv_virt + offset) % 4294967296 ≠ 0) :
    ion_system_contig_heap_cache_ops plat buffer vaddr offset length cmd =
      (0, [⟨op, vaddr, length, (plat.virt_to_phys buffer.priv_virt + offset) % 4294967296⟩]) := by
  have h12 : plat.ION_IOC_INV_CACHES ≠ plat.ION_IOC_CLEAN_CACHES := fun h =>
    absurd (@hinj CacheOp.invalidate_caches CacheOp.clean_caches h) (by decide)
  have h13 : plat.ION_IOC_CLEAN_INV_CACHES ≠ plat.ION_IOC_CLEAN_CACHES := fun h =>
    absurd (@hinj CacheOp.clean_and_invalidate_caches CacheOp.clean_caches h) (by decide)
  have h23 : plat.ION_IOC_CLEAN_INV_CACHES ≠ plat.ION_IOC_INV_CACHES := fun h =>
    absurd (@hinj CacheOp.clean_and_invalidate_caches CacheOp.invalidate_caches h) (by decide)
  subst hcmd
  cases op <;>
    simp [ion_system_contig_heap_cache_ops, command_code, hphys, h12, h13, h23]

/-- Witness for C17: clean over 8192 bytes of the demo buffer. -/
theorem contig_cache_op_single_call_witness :
    ion_system_contig_heap_cache_ops demo_platform (demo_buffer 12288) 1073741824 0 8192
        (command_code demo_platform CacheOp.clean_caches) =
      (0, [⟨CacheOp.clean_caches, 1073741824, 8192,
        (demo_platform.virt_to_phys (demo_buffer 12288).priv_virt + 0) % 4294967296⟩]) :=
  contig_cache_op_single_call demo_platform (demo_buffer 12288) 1073741824 0 8192
    (command_code demo_platform CacheOp.clean_caches) CacheOp.clean_caches
    (demo_command_code_injective demo_platform ⟨rfl, rfl, rfl⟩) rfl (by decide)

/-- Counterexample for C17 as stated: over 8192 bytes the contiguous heap makes
one call of length 8192, not `ceil(8192 / PAGE_SIZE) = 2` calls of a page each; over
0 bytes it makes one call, not none. -/
theorem contig_cache_op_single_call_counterexample :
    (demo_platform.virt_to_phys (demo_buffer 12288).priv_virt + 0) % 4294967296 ≠ 0 ∧
    ion_system_contig_heap_cache_ops demo_platform (demo_buffer 12288) 1073741824 0 8192
        demo_platform.ION_IOC_CLEAN_CACHES =
      (0, [⟨CacheOp.clean_caches, 1073741824, 8192, 268435456⟩]) ∧
    granules 8192 = 2 ∧
    ion_system_contig_heap_cache_ops demo_platform (demo_buffer 12288) 1073741824 0 0
        demo_platform.ION_IOC_CLEAN_CACHES =
      (0, [⟨CacheOp.clean_caches, 1073741824, 0, 268435456⟩]) ∧
    granules 0 = 0 := by
  decide

/-- Claim C18.  For the paged heap with cached flags and no active IOMMU,
`map_iommu` returns `-EINVAL` and leaves the world (page tables, address pool,
calls made) and the record as they were. -/
theorem paged_map_iommu_without_iommu (plat : Platform) (w : World) (buffer : Buffer)
    (data : IommuMap) (dn pn align len flags : Nat)
    (hc : plat.ION_IS_CACHED flags = true) (hu : plat.msm_use_iommu = false) :
    ion_system_heap_map_iommu plat w buffer data dn pn align len flags = (-EINVAL, w, data) := by
  simp [ion_system_heap_map_iommu, hc, hu]

/-- Witness for C18: the demo buffer on the demo platform without IOMMU. -/
theorem paged_map_iommu_without_iommu_witness :
    ion_system_heap_map_iommu demo_no_iommu empty_world (demo_buffer 8192) (demo_record 1 0)
      1 0 4096 8192 1 = (-EINVAL, empty_world, demo_record 1 0) :=
  paged_map_iommu_without_iommu demo_no_iommu empty_world (demo_buffer 8192) (demo_record 1 0)
    1 0 4096 8192 1 (by decide) (by decide)

/-- Claim C19.  For either heap on the active-IOMMU path, when the size is a
positive multiple of 4096, `size <= requested_length <= 2^31 - 1`, the call
returns `0` and the reserved range `[B, B + requested_length)` lies in the 32-bit
address space: the granules mapped are exactly those at `B + k * 4096` for
`k < size / 4096`, so they cover exactly `[B, B + size)`; the region handed to
`msm_iommu_map_extra`, only when `requested_length > size`, is exactly
`[B + size, B + requested_length)`; so both lie in the reserved range
`[B, B + mapped_size)` and do not overlap. -/
theorem map_iommu_tiles_reservation (heap : HeapType) (plat : Platform) (w : World)
    (buffer : Buffer) (data : IommuMap) (dn pn align len flags n : Nat)
    (hu : plat.msm_use_iommu = true)
    (hsize : buffer.size = n * 4096) (hpos : 0 < buffer.size) (hlen : buffer.size ≤ len)
    (hmax : len ≤ 2147483647)
    (hfit : ((heap_ops heap).map_iommu plat w buffer data dn pn align len flags).2.2.iova_addr
      + len ≤ 4294967296)
    (hz : ((heap_ops heap).map_iommu plat w buffer data dn pn align len flags).1 = 0) :
    mapped_granules (calls_since w
        ((heap_ops heap).map_iommu plat w buffer data dn pn align len flags).2.1) =
      (List.range n).map (fun k =>
        ((heap_ops heap).map_iommu plat w buffer data dn pn align len flags).2.2.iova_addr
          + k * 4096) ∧
    (∀ x,
      (((heap_ops heap).map_iommu plat w buffer data dn pn align len flags).2.2.iova_addr ≤ x ∧
        x < ((heap_ops heap).map_iommu plat w buffer data dn pn align len flags).2.2.iova_addr
          + buffer.size) ↔
      ∃ a, a ∈ mapped_granules (calls_since w
          ((heap_ops heap).map_iommu plat w buffer data dn pn align len flags).2.1) ∧
        a ≤ x ∧ x < a + 4096) ∧
    padding_regions (calls_since w
        ((heap_ops heap).map_iommu plat w buffer data dn pn align len flags).2.1) =
      (if buffer.size < len then
        [(((heap_ops heap).map_iommu plat w buffer data dn pn align len flags).2.2.iova_addr
            + buffer.size, len - buffer.size)]
      else []) ∧
    (∀ p, p ∈ padding_regions (calls_since w
          ((heap_ops heap).map_iommu plat w buffer data dn pn align len flags).2.1) →
      ((heap_ops heap).map_iommu plat w buffer data dn pn align len flags).2.2.iova_addr
          + buffer.size ≤ p.1 ∧
        p.1 + p.2 =
          ((heap_ops heap).map_iommu plat w buffer data dn pn align len flags).2.2.iova_addr
            + ((heap_ops heap).map_iommu plat w buffer data dn pn align len flags).2.2.mapped_size)
      ∧
    ((heap_ops heap).map_iommu plat w buffer data dn pn align len flags).2.2.mapped_size = len := by
  obtain ⟨h1, h2, h3⟩ := map_success_regions heap plat w buffer data dn pn align len flags n hu
    hsize hpos hlen (by omega) hfit hz
  generalize ((heap_ops heap).map_iommu plat w buffer data dn pn align len flags).2.2.iova_addr
    = B at h1 h2 hfit ⊢
  refine ⟨h1, ?_, h2, ?_, h3⟩
  · intro x
    rw [h1]
    constructor
    · intro ⟨hx1, hx2⟩
      refine ⟨B + ((x - B) / 4096) * 4096, ?_, ?_, ?_⟩
      · rw [List.mem_map]
        refine ⟨(x - B) / 4096, ?_, rfl⟩
        rw [List.mem_range]
        omega
      · omega
      · omega
    · intro ⟨a, ha, hx1, hx2⟩
      rw [List.mem_map] at ha
      obtain ⟨k, hk, rfl⟩ := ha
      rw [List.mem_range] at hk
      omega
  · intro p hp
    rw [h2] at hp
    rw [h3]
    by_cases hlt : buffer.size < len
    · simp only [hlt, if_true, List.mem_singleton] at hp
      subst hp
      simp only
      omega
    · simp [hlt] at hp

/-- Witness for C19: a 3-page paged buffer mapped with a requested length of 4
pages. -/
theorem map_iommu_tiles_reservation_witness :
    mapped_granules (calls_since empty_world
        ((heap_ops HeapType.ION_HEAP_TYPE_SYSTEM).map_iommu demo_platform empty_world
          (demo_buffer 12288) (demo_record 1 0) 1 0 4096 16384 1).2.1) =
      (List.range 3).map (fun k =>
        ((heap_ops HeapType.ION_HEAP_TYPE_SYSTEM).map_iommu demo_platform empty_world
          (demo_buffer 12288) (demo_record 1 0) 1 0 4096 16384 1).2.2.iova_addr + k * 4096) ∧
    padding_regions (calls_since empty_world
        ((heap_ops HeapType.ION_HEAP_TYPE_SYSTEM).map_iommu demo_platform empty_world
          (demo_buffer 12288) (demo_record 1 0) 1 0 4096 16384 1).2.1) =
      (if (demo_buffer 12288).size < 16384 then
        [(((heap_ops HeapType.ION_HEAP_TYPE_SYSTEM).map_iommu demo_platform empty_world
            (demo_buffer 12288) (demo_record 1 0) 1 0 4096 16384 1).2.2.iova_addr
            + (demo_buffer 12288).size, 16384 - (demo_buffer 12288).size)]
      else []) :=
  have h := map_iommu_tiles_reservation HeapType.ION_HEAP_TYPE_SYSTEM demo_platform empty_world
    (demo_buffer 12288) (demo_record 1 0) 1 0 4096 16384 1 3 (by decide) (by decide)
    (by decide) (by decide) (by decide) (by decide) (by decide)
  ⟨h.1, h.2.2.1⟩

/-- Claim C20 (amended).  For either heap on the active-IOMMU path, when the
size is a positive multiple of 4096 with `size <= 2^31 - 1`,
`requested_length >= size`, the call returns `0` and the reserved range lies in
the 32-bit address space: every granule mapped lies in
`[B, B + requested_length)`, and the padding region handed to
`msm_iommu_map_extra` starts at `B + 4096 * ceil(size / 4096)`, has length
`requested_length - size` and ends at or before `B + requested_length`. -/
theorem map_iommu_stays_in_reservation (heap : HeapType) (plat : Platform) (w : World)
    (buffer : Buffer) (data : IommuMap) (dn pn align len flags n : Nat)
    (hu : plat.msm_use_iommu = true)
    (hsize : buffer.size = n * 4096) (hpos : 0 < buffer.size) (hlen : buffer.size ≤ len)
    (hmax : buffer.size ≤ 2147483647)
    (hfit : ((heap_ops heap).map_iommu plat w buffer data dn pn align len flags).2.2.iova_addr
      + len ≤ 4294967296)
    (hz : ((heap_ops heap).map_iommu plat w buffer data dn pn align len flags).1 = 0) :
    (∀ a, a ∈ mapped_granules (calls_since w
          ((heap_ops heap).map_iommu plat w buffer data dn pn align len flags).2.1) →
      ((heap_ops heap).map_iommu plat w buffer data dn pn align len flags).2.2.iova_addr ≤ a ∧
        a + 4096 ≤
          ((heap_ops heap).map_iommu plat w buffer data dn pn align len flags).2.2.iova_addr
            + len) ∧
    (∀ p, p ∈ padding_regions (calls_since w
          ((heap_ops heap).map_iommu plat w buffer data dn pn align len flags).2.1) →
      p.1 = ((heap_ops heap).map_iommu plat w buffer data dn pn align len flags).2.2.iova_addr
          + 4096 * granules buffer.size ∧
        p.2 = len - buffer.size ∧
        p.1 + p.2 ≤
          ((heap_ops heap).map_iommu plat w buffer data dn pn align len flags).2.2.iova_addr
            + len) := by
  obtain ⟨h1, h2, _⟩ := map_success_regions heap plat w buffer data dn pn align len flags n hu
    hsize hpos hlen hmax hfit hz
  generalize ((heap_ops heap).map_iommu plat w buffer data dn pn align len flags).2.2.iova_addr
    = B at h1 h2 hfit ⊢
  have hg : granules buffer.size = n := by unfold granules; omega
  refine ⟨?_, ?_⟩
  · intro a ha
    rw [h1, List.mem_map] at ha
    obtain ⟨k, hk, rfl⟩ := ha
    rw [List.mem_range] at hk
    omega
  · intro p hp
    rw [h2] at hp
    by_cases hlt : buffer.size < len
    · simp only [hlt, if_true, List.mem_singleton] at hp
      subst hp
      simp only
      refine ⟨by omega, trivial, by omega⟩
    · simp [hlt] at hp

/-- Witness for C20: the padding region of a 3-page paged buffer mapped with a
requested length of 4 pages. -/
theorem map_iommu_stays_in_reservation_witness :
    ((77824, 4096) : Nat × Nat).1 =
        ((heap_ops HeapType.ION_HEAP_TYPE_SYSTEM).map_iommu demo_platform empty_world
          (demo_buffer 12288) (demo_record 1 0) 1 0 4096 16384 1).2.2.iova_addr
          + 4096 * granules (demo_buffer 12288).size ∧
      ((77824, 4096) : Nat × Nat).2 = 16384 - (demo_buffer 12288).size ∧
      ((77824, 4096) : Nat × Nat).1 + ((77824, 4096) : Nat × Nat).2 ≤
        ((heap_ops HeapType.ION_HEAP_TYPE_SYSTEM).map_iommu demo_platform empty_world
          (demo_buffer 12288) (demo_record 1 0) 1 0 4096 16384 1).2.2.iova_addr + 16384 :=
  (map_iommu_stays_in_reservation HeapType.ION_HEAP_TYPE_SYSTEM demo_platform empty_world
    (demo_buffer 12288) (demo_record 1 0) 1 0 4096 16384 1 3 (by decide) (by decide)
    (by decide) (by decide) (by decide) (by decide) (by decide)).2 (77824, 4096) (by decide)

/-- Counterexample for C20 as stated.  First, size 5000 and requested length
12288: the padding region starts at `B + 8192` with length 7288 and ends beyond
`B + 12288`.  Second, size 5000 and requested length 5000: the last granule ends
at `B + 8192`, beyond `B + 5000`.  Third, size `2^31`: the `int` counter starts
negative, no granule is mapped, and the padding region starts at `B`, not at
`B + 4096 * ceil(size / 4096)`. -/
theorem map_iommu_stays_in_reservation_counterexample :
    (((heap_ops HeapType.ION_HEAP_TYPE_SYSTEM).map_iommu demo_platform empty_world
        (demo_buffer 5000) (demo_record 1 0) 1 0 4096 12288 1).1 = 0 ∧
      ((heap_ops HeapType.ION_HEAP_TYPE_SYSTEM).map_iommu demo_platform empty_world
        (demo_buffer 5000) (demo_record 1 0) 1 0 4096 12288 1).2.2.iova_addr = 65536 ∧
      padding_regions (calls_since empty_world
        ((heap_ops HeapType.ION_HEAP_TYPE_SYSTEM).map_iommu demo_platform empty_world
          (demo_buffer 5000) (demo_record 1 0) 1 0 4096 12288 1).2.1) = [(73728, 7288)] ∧
      65536 + 12288 < 73728 + 7288) ∧
    (((heap_ops HeapType.ION_HEAP_TYPE_SYSTEM).map_iommu demo_platform empty_world
        (demo_buffer 5000) (demo_record 1 0) 1 0 4096 5000 1).1 = 0 ∧
      mapped_granules (calls_since empty_world
        ((heap_ops HeapType.ION_HEAP_TYPE_SYSTEM).map_iommu demo_platform empty_world
          (demo_buffer 5000) (demo_record 1 0) 1 0 4096 5000 1).2.1) = [65536, 69632] ∧
      65536 + 5000 < 69632 + 4096) ∧
    (((heap_ops HeapType.ION_HEAP_TYPE_SYSTEM).map_iommu demo_platform empty_world
        (demo_buffer 2147483648) (demo_record 1 0) 1 0 4096 2147487744 1).1 = 0 ∧
      padding_regions (calls_since empty_world
        ((heap_ops HeapType.ION_HEAP_TYPE_SYSTEM).map_iommu demo_platform empty_world
          (demo_buffer 2147483648) (demo_record 1 0) 1 0 4096 2147487744 1).2.1)
        = [(65536, 4096)] ∧
      65536 + 4096 * granules (demo_buffer 2147483648).size = 2147549184) := by
  decide

end IonSystemHeap
